import Mathlib

/-!
Shallow embedding of the crawlix SEO-analysis core (TypeScript sources under
`src/lib/seo-analyzer` and `src/lib/utils`) together with proofs about the
behaviour its specification claims.

Modelling conventions:
* JS strings are Lean `String`s (processed as `List Char`); the minor
  UTF-16 / code-point mismatch is irrelevant to every claim checked here.
* JS `number` arithmetic is modelled over `ℚ` (scores, percentages) and
  `ℤ`/`ℕ` (counts); `toFixed(d)` is modelled as rounding to `d` decimals
  (round half up, which agrees with JS on the non-negative values that occur).
* DOM documents are modelled as a flat list of elements in document order,
  which is exactly the view the code obtains through `querySelectorAll`;
  computed-style visibility, `JSON.parse` and the `URL` constructor are
  platform primitives and are modelled as explicit parameters/fields.
* `try { JSON.parse } catch` is modelled with `Except String`.
-/

namespace Crawlix

/-! ## JS string primitives -/

/-- Models the JS regex class `\s` (whitespace). -/
def isWs (c : Char) : Bool := c.isWhitespace

/-- Core of `String.prototype.trim`: drop whitespace from both ends. -/
def trimChars (l : List Char) : List Char :=
  ((l.dropWhile isWs).reverse.dropWhile isWs).reverse

/-- Models `s.trim()`. -/
def jsTrim (s : String) : String := String.mk (trimChars s.data)

/-- Models `s.startsWith(pre)`, computed over the char lists. -/
def jsStartsWith (s pre : String) : Bool := pre.data.isPrefixOf s.data

/-- Models `s.toLowerCase()` (ASCII range; the analyzers only feed it
tag names, anchor text and tokens). -/
def jsToLower (s : String) : String := String.mk (s.data.map Char.toLower)

/-- Accumulator loop of `runsBy`: `acc` holds the reversed chars of the
current run. -/
def runsByAux (keep : Char → Bool) : List Char → List Char → List String
  | [], acc => if acc = [] then [] else [String.mk acc.reverse]
  | c :: cs, acc =>
    if keep c then runsByAux keep cs (c :: acc)
    else if acc = [] then runsByAux keep cs []
    else String.mk acc.reverse :: runsByAux keep cs []

/-- Maximal runs of characters satisfying `keep`, left to right.  This is the
value of `s.split(<runs of non-keep chars>)` with empty pieces removed. -/
def runsBy (keep : Char → Bool) (l : List Char) : List String :=
  runsByAux keep l []

/-- Models `text.trim().split(/\s+/).filter(w => w.length > 0)`: the maximal
whitespace-free runs of the text. -/
def jsWords (s : String) : List String := runsBy (fun c => !isWs c) s.data

/-- Models `hay.includes(pat)` on char lists. -/
def containsSub : List Char → List Char → Bool
  | l, pat =>
    if pat.isPrefixOf l then true
    else
      match l with
      | [] => false
      | _ :: t => containsSub t pat

/-- Models `hay.includes(pat)`. -/
def jsIncludes (hay pat : String) : Bool := containsSub hay.data pat.data

/-- Models the JS idiom `x || undefined` / `x || null` on an optional string:
an absent or empty string becomes `none`. -/
def emptyToNone : Option String → Option String
  | some s => if s = "" then none else some s
  | none => none

/-- Models `Number(q.toFixed(d))`: round to `d` decimal places.  JS rounds
half away from zero; on the non-negative values this code produces that is
round half up, i.e. Mathlib `round`. -/
def toFixedQ (d : Nat) (q : ℚ) : ℚ := ((round (q * 10 ^ d) : ℤ) : ℚ) / 10 ^ d

/-! ## text-processor.ts -/

/-- Vowel class `[aeiouy]` of the syllable heuristic. -/
def isVowelY (c : Char) : Bool :=
  c = 'a' || c = 'e' || c = 'i' || c = 'o' || c = 'u' || c = 'y'

/-- Character class `[^laeiouy]` used by the suffix-stripping regex of
`countSyllables` (a consonant other than `l`). -/
def stripOk (c : Char) : Bool := !(c = 'l' || isVowelY c)

/-- Models `word.replace(/(?:[^laeiouy]es|[^laeiouy]ed|[^laeiouy]e)$/, '')`.
Because every alternative is anchored at `$` and is 2 or 3 characters long,
the JS engine can only match at `len-3` (alternatives `Xes`/`Xed`) or at
`len-2` (alternative `Xe`), trying the longer ones first; the whole match,
consonant included, is removed. -/
def stripTrailing (cs : List Char) : List Char :=
  match cs.reverse with
  | 's' :: 'e' :: c :: rest => if stripOk c then rest.reverse else cs
  | 'd' :: 'e' :: c :: rest => if stripOk c then rest.reverse else cs
  | 'e' :: c :: rest => if stripOk c then rest.reverse else cs
  | _ => cs

/-- Models `word.replace(/^y/, '')`. -/
def stripLeadY : List Char → List Char
  | 'y' :: rest => rest
  | cs => cs

/-- Models `word.match(/[aeiouy]{1,2}/g)?.length ?? 0`: the global regex
scans left to right and greedily consumes one or two vowels per match. -/
def vowelScan : List Char → Nat
  | [] => 0
  | [c] => if isVowelY c then 1 else 0
  | c :: d :: cs =>
    if isVowelY c then
      if isVowelY d then 1 + vowelScan cs else 1 + vowelScan (d :: cs)
    else
      vowelScan (d :: cs)

/-- Translation of `countSyllables` (text-processor.ts). -/
def countSyllables (word : String) : Nat :=
  let w := (jsTrim (jsToLower word)).data
  if w.length ≤ 3 then 1
  else
    let w1 := stripTrailing w
    let w2 := stripLeadY w1
    let m := vowelScan w2
    if m = 0 then 1 else m

/-- Translation of `countWords` (text-processor.ts). -/
def countWords (text : String) : Nat :=
  if jsTrim text = "" then 0 else (jsWords text).length

/-- Sentence-ending punctuation class `[.!?]`. -/
def isPunct (c : Char) : Bool := c = '.' || c = '!' || c = '?'

/-- Run counter for `punctRuns`: the flag records whether the previous
character belonged to a punctuation run. -/
def punctRunsAux : List Char → Bool → Nat
  | [], _ => 0
  | c :: cs, inRun =>
    if isPunct c then
      (if inRun then punctRunsAux cs true else 1 + punctRunsAux cs true)
    else punctRunsAux cs false

/-- Number of maximal runs matching `[.!?]+`, i.e.
`text.match(/[.!?]+/g)?.length ?? 0`. -/
def punctRuns (l : List Char) : Nat := punctRunsAux l false

/-- Translation of `countSentences` (text-processor.ts): at least one
sentence whenever the text is non-blank. -/
def countSentences (text : String) : Nat :=
  if jsTrim text = "" then 0
  else
    let m := punctRuns text.data
    if m = 0 then 1 else m

/-- Translation of `countTotalSyllables` (text-processor.ts). -/
def countTotalSyllables (text : String) : Nat :=
  if jsTrim text = "" then 0
  else ((jsWords text).map countSyllables).sum

/-- Lower-case alphanumeric class `[a-z0-9]` of `tokenize`. -/
def isAlnumLower (c : Char) : Bool :=
  ('a' ≤ c && c ≤ 'z') || ('0' ≤ c && c ≤ '9')

/-- Translation of `tokenize` (text-processor.ts): lowercase, split on runs
of non-`[a-z0-9]`, keep tokens of at least `minLength` characters. -/
def tokenize (text : String) (minLength : Nat) : List String :=
  (runsBy isAlnumLower (jsToLower text).data).filter
    (fun w => minLength ≤ w.length)

/-- Translation of `generateNGrams` (text-processor.ts): all windows of `n`
consecutive words joined by a space. -/
def generateNGrams (words : List String) (n : Nat) : List String :=
  if words.length < n then []
  else
    (List.range (words.length - n + 1)).map
      (fun i => String.intercalate " " ((words.drop i).take n))

/-- One step of `calculateWordFrequency`: `Map.set(w, (Map.get(w) ?? 0)+1)`,
keeping first-insertion order as a JS `Map` does. -/
def bump : List (String × Nat) → String → List (String × Nat)
  | [], w => [(w, 1)]
  | (k, c) :: rest, w =>
    if k = w then (k, c + 1) :: rest else (k, c) :: bump rest w

/-- Translation of `calculateWordFrequency` (text-processor.ts): phrase
frequency in first-occurrence order. -/
def calculateWordFrequency (words : List String) : List (String × Nat) :=
  words.foldl bump []

/-- Translation of `calculatePercentage` (text-processor.ts); the default
`decimals = 2` of the source is supplied at every call site here. -/
def calculatePercentage (part total decimals : Nat) : ℚ :=
  if total = 0 then 0 else toFixedQ decimals ((part : ℚ) / (total : ℚ) * 100)

/-! ## constants.ts -/

/-- Translation of `STOP_WORDS` (constants.ts); the JS `Set` is modelled by
list membership (the duplicated entries of the literal are harmless). -/
def STOP_WORDS : List String :=
  ["a", "an", "and", "are", "as", "at", "be", "by", "for", "from",
   "has", "he", "in", "is", "it", "its", "of", "on", "that", "the",
   "to", "was", "will", "with", "we", "you", "your", "this", "they",
   "or", "but", "not", "can", "may", "if", "their", "which", "more",
   "about", "such", "been", "were", "would", "there", "than", "into",
   "so", "up", "out", "when", "only", "no", "all", "do", "does",
   "did", "what", "who", "whom", "whose", "where", "why", "how",
   "our", "his", "her", "my", "am", "have", "had", "has", "been",
   "being", "having", "one", "two", "three", "four", "five",
   "some", "any", "each", "every", "either", "neither", "both",
   "other", "another", "these", "those", "i", "me", "him"]

/-- Model of `KEYWORD_CONFIG.MIN_WORD_LENGTH` (constants.ts). -/
def MIN_WORD_LENGTH : Nat := 3

/-- Model of `KEYWORD_CONFIG.MAX_RESULTS_PER_NGRAM` (constants.ts). -/
def MAX_RESULTS_PER_NGRAM : Nat := 20

/-- Model of `KEYWORD_CONFIG.MIN_OCCURRENCES` (constants.ts). -/
def MIN_OCCURRENCES : Nat := 2

/-- Translation of `GRADE_LEVELS.getGradeLevel` (constants.ts). -/
def getGradeLevel (score : ℚ) : String :=
  if score ≥ 90 then "5th grade"
  else if score ≥ 80 then "6th grade"
  else if score ≥ 70 then "7th grade"
  else if score ≥ 60 then "8th-9th grade"
  else if score ≥ 50 then "10th-12th grade"
  else if score ≥ 30 then "College level"
  else "College graduate"

/-- Translation of `GRADE_LEVELS.getInterpretation` (constants.ts). -/
def getInterpretation (score : ℚ) : String :=
  if score ≥ 90 then "Very Easy to read. Easily understood by an average 11-year-old student."
  else if score ≥ 80 then "Easy to read. Conversational English for consumers."
  else if score ≥ 70 then "Fairly Easy to read."
  else if score ≥ 60 then "Plain English. Easily understood by 13- to 15-year-old students."
  else if score ≥ 50 then "Fairly Difficult to read."
  else if score ≥ 30 then "Difficult to read."
  else "Very Difficult to read. Best understood by university graduates."

/-! ## readability-scorer.ts -/

/-- Statistics block of a `ReadabilityScore` (types/analysis.ts). -/
structure RStats where
  sentences : Nat
  words : Nat
  syllables : Nat
  avgWordsPerSentence : ℚ
  avgSyllablesPerWord : ℚ
  deriving DecidableEq

/-- Model of `ReadabilityScore` (types/analysis.ts). -/
structure ReadabilityScore where
  fleschScore : ℚ
  gradeLevel : String
  interpretation : String
  statistics : RStats
  deriving DecidableEq

/-- Translation of `calculateReadability` (readability-scorer.ts). -/
def calculateReadability (text : String) : ReadabilityScore :=
  if jsTrim text = "" then
    { fleschScore := 0, gradeLevel := "N/A",
      interpretation := "No text content found",
      statistics := { sentences := 0, words := 0, syllables := 0,
                      avgWordsPerSentence := 0, avgSyllablesPerWord := 0 } }
  else
    let sentences := countSentences text
    let words := countWords text
    let syllables := countTotalSyllables text
    if sentences = 0 || words = 0 then
      { fleschScore := 0, gradeLevel := "N/A",
        interpretation := "Insufficient text for analysis",
        statistics := { sentences := sentences, words := words,
                        syllables := syllables,
                        avgWordsPerSentence := 0, avgSyllablesPerWord := 0 } }
    else
      let avgWordsPerSentence : ℚ := (words : ℚ) / (sentences : ℚ)
      let avgSyllablesPerWord : ℚ := (syllables : ℚ) / (words : ℚ)
      let fleschScore : ℚ :=
        206.835 - 1.015 * avgWordsPerSentence - 84.6 * avgSyllablesPerWord
      let clampedScore := max 0 (min 100 fleschScore)
      { fleschScore := toFixedQ 1 clampedScore,
        gradeLevel := getGradeLevel clampedScore,
        interpretation := getInterpretation clampedScore,
        statistics := { sentences := sentences, words := words,
                        syllables := syllables,
                        avgWordsPerSentence := toFixedQ 1 avgWordsPerSentence,
                        avgSyllablesPerWord := toFixedQ 2 avgSyllablesPerWord } }

/-! ## keyword-analyzer.ts -/

/-- Model of `KeywordDensity` (types/analysis.ts). -/
structure KeywordDensity where
  phrase : String
  count : Nat
  percentage : ℚ
  nGram : Nat
  deriving DecidableEq

/-- Comparator of the final `keywords.sort((a, b) => b.count - a.count)`:
descending by count.  JS `sort` is stable, and insertion sort with this
non-strict relation computes exactly the stable descending reordering. -/
def kwGE (a b : KeywordDensity) : Prop := b.count ≤ a.count

instance : DecidableRel kwGE := fun a b => Nat.decLe b.count a.count

instance : IsTotal KeywordDensity kwGE :=
  ⟨fun a b => Nat.le_total b.count a.count⟩

instance : IsTrans KeywordDensity kwGE :=
  ⟨fun _ _ _ h h2 => Nat.le_trans h2 h⟩

/-- Translation of `analyzeNGram` (keyword-analyzer.ts): count phrase
frequency over the n-gram windows, drop low-frequency phrases, attach
percentages, sort by count descending, keep the top results. -/
def analyzeNGram (words : List String) (n : Nat) (totalWords : Nat) :
    List KeywordDensity :=
  let ngrams := generateNGrams words n
  if ngrams = [] then []
  else
    let frequency := calculateWordFrequency ngrams
    let keywords := frequency.filterMap fun pc =>
      if pc.2 < MIN_OCCURRENCES then none
      else
        let adjustedTotal := if n = 1 then totalWords else ngrams.length
        some { phrase := pc.1, count := pc.2,
               percentage := calculatePercentage pc.2 adjustedTotal 2,
               nGram := n }
    (List.insertionSort kwGE keywords).take MAX_RESULTS_PER_NGRAM

/-- The pre-sort entry list built inside `analyzeNGram`: one
`KeywordDensity` per counted phrase at or above the occurrence threshold,
in first-occurrence order. -/
def kwEntries (G : List String) (base n : Nat) : List KeywordDensity :=
  (calculateWordFrequency G).filterMap fun pc =>
    if pc.2 < MIN_OCCURRENCES then none
    else some { phrase := pc.1, count := pc.2,
                percentage := calculatePercentage pc.2 base 2, nGram := n }

/-- Translation of `analyzeKeywords` (keyword-analyzer.ts). -/
def analyzeKeywords (text : String) : List KeywordDensity :=
  if jsTrim text = "" then []
  else
    let words := tokenize text MIN_WORD_LENGTH
    let filteredWords := words.filter (fun w => !STOP_WORDS.contains w)
    let totalWords := filteredWords.length
    if totalWords = 0 then []
    else
      analyzeNGram filteredWords 1 totalWords ++
        analyzeNGram filteredWords 2 totalWords ++
        analyzeNGram filteredWords 3 totalWords

/-- Translation of `getTotalUniqueKeywords` (keyword-analyzer.ts). -/
def getTotalUniqueKeywords (keywords : List KeywordDensity) : Nat :=
  ((keywords.map (·.phrase)).dedup).length

/-! ## url-validator.ts

The browser `URL` constructor is a platform primitive; its two uses are
modelled as explicit total functions bundled in `UrlPrims` (`getHostname`
already catches its own exceptions and returns a string, `resolveUrl`
catches and falls back to the raw href, so both uses are total). -/

/-- Platform `URL` primitives consumed by url-validator.ts. -/
structure UrlPrims where
  hostname : String → String
  resolve : String → String → String

/-- Translation of `isInternalLink` (url-validator.ts), over a hostname
primitive modelling `getHostname` (`new URL(u).hostname`, `""` on failure). -/
def isInternalLink (hostFn : String → String) (href baseUrl : String) : Bool :=
  if href = "" then false
  else if jsStartsWith href "#" then true
  else if jsStartsWith href "/" && !jsStartsWith href "//" then true
  else if !jsStartsWith href "http://" && !jsStartsWith href "https://"
          && !jsStartsWith href "//" then true
  else hostFn href == hostFn baseUrl

/-- Translation of `resolveUrl` (url-validator.ts); `up.resolve` models
`new URL(href, new URL(baseUrl)).href` with its surrounding catch. -/
def resolveUrl (up : UrlPrims) (href baseUrl : String) : String :=
  if href = "" then ""
  else if jsStartsWith href "http://" || jsStartsWith href "https://" then href
  else up.resolve href baseUrl

/-- Translation of `hasNoFollow` (url-validator.ts). -/
def hasNoFollow (rel : Option String) : Bool :=
  match rel with
  | none => false
  | some r => jsIncludes (jsToLower r) "nofollow"

/-! ## parser.ts — document model

A document is the flat, document-ordered element list that the analyzers
obtain through `querySelectorAll`.  Every element carries its tag (stored
lowercase; heading tag digits behave as `tagName.substring(1)` does on the
uppercase DOM names), its attributes (`getAttribute` returns the first
binding or `none`), its flattened `textContent`, and one platform bit:
whether `getComputedStyle` reports it as `display:none`/`visibility:hidden`.
`extractAllText(doc)` walks text nodes of the body, skipping
script/style/noscript/iframe/object/embed subtrees, and collapses
whitespace; as a whole-tree traversal it is carried as the `bodyText`
field of the document view. -/

/-- One DOM element as seen by parser.ts. -/
structure Elem where
  tag : String
  attrs : List (String × String)
  textContent : String
  cssHidden : Bool
  deriving DecidableEq

/-- The normalized document view. -/
structure Doc where
  elems : List Elem
  bodyText : String
  deriving DecidableEq

/-- Models `element.getAttribute(name)`. -/
def getAttribute (e : Elem) (name : String) : Option String :=
  e.attrs.lookup name

/-- Translation of `getAttributeSafe` (parser.ts). -/
def getAttributeSafe (e : Elem) (name : String) : Option String :=
  getAttribute e name

/-- Models `element.hasAttribute(name)`. -/
def hasAttributeB (e : Elem) (name : String) : Bool :=
  (getAttribute e name).isSome

/-- Translation of `isElementVisible` (parser.ts): hidden attribute,
`aria-hidden="true"`, or computed `display:none`/`visibility:hidden`. -/
def isElementVisible (e : Elem) : Bool :=
  !hasAttributeB e "hidden"
    && !(getAttribute e "aria-hidden" == some "true")
    && !e.cssHidden

/-- Translation of `getTextContentSafe` (parser.ts):
`element.textContent?.trim() || ''`. -/
def getTextContentSafe (e : Elem) : String := jsTrim e.textContent

/-- Translation of `getAllImages` (parser.ts): `querySelectorAll('img')`. -/
def getAllImages (doc : Doc) : List Elem :=
  doc.elems.filter (fun e => e.tag == "img")

/-- Translation of `getAllLinks` (parser.ts): `querySelectorAll('a[href]')`. -/
def getAllLinks (doc : Doc) : List Elem :=
  doc.elems.filter (fun e => e.tag == "a" && hasAttributeB e "href")

/-- Tags selected by `getAllHeadings`. -/
def headingTags : List String := ["h1", "h2", "h3", "h4", "h5", "h6"]

/-- Translation of `getAllHeadings` (parser.ts):
`querySelectorAll('h1, h2, h3, h4, h5, h6')` in document order. -/
def getAllHeadings (doc : Doc) : List Elem :=
  doc.elems.filter (fun e => headingTags.contains e.tag)

/-- Translation of `getJSONLDScripts` (parser.ts):
`querySelectorAll('script[type="application/ld+json"]')`. -/
def getJSONLDScripts (doc : Doc) : List Elem :=
  doc.elems.filter
    (fun e => e.tag == "script"
      && getAttribute e "type" == some "application/ld+json")

/-- Translation of `extractAllText` (parser.ts); see the `Doc` commentary. -/
def extractAllText (doc : Doc) : String := doc.bodyText

/-! ## headings-analyzer.ts -/

/-- Model of `Heading` (types/analysis.ts); the TS level type `1|2|3|4|5|6` is a
`Nat` here, and the C8 theorem proves the [1,6] bound. -/
structure Heading where
  level : Nat
  text : String
  wordCount : Nat
  deriving DecidableEq

/-- Decimal value of a digit run. -/
def digitsToNat (ds : List Char) : Nat :=
  ds.foldl (fun n c => n * 10 + (c.toNat - '0'.toNat)) 0

/-- Models `parseInt(element.tagName.substring(1))` for heading tags:
the leading digit run of the tag name after the initial letter (`NaN`,
impossible for the selected `h1..h6` tags, is mapped to 0). -/
def levelOfTag (tag : String) : Nat :=
  let digits := (tag.drop 1).data.takeWhile (fun c => c.isDigit)
  if digits = [] then 0 else digitsToNat digits

/-- Loop body of `analyzeHeadings` (headings-analyzer.ts): `continue` on a
hidden element or blank text, otherwise build the heading record. -/
def headingOfElem (e : Elem) : Option Heading :=
  if !isElementVisible e then none
  else
    let text := getTextContentSafe e
    if text = "" then none
    else some { level := levelOfTag e.tag, text := text,
                wordCount := countWords text }

/-- Translation of `analyzeHeadings` (headings-analyzer.ts). -/
def analyzeHeadings (doc : Doc) : List Heading :=
  (getAllHeadings doc).filterMap headingOfElem

/-- Inner loop of `checkSkippedLevels` (headings-analyzer.ts): some heading
is more than one level deeper than its predecessor. -/
def skippedAux : List Heading → Bool
  | h1 :: h2 :: rest =>
    decide (h1.level + 1 < h2.level) || skippedAux (h2 :: rest)
  | _ => false

/-- Translation of `checkSkippedLevels` (headings-analyzer.ts). -/
def checkSkippedLevels (headings : List Heading) : Bool :=
  if headings.length < 2 then false else skippedAux headings

/-- Result triple of `detectHeadingIssues` (headings-analyzer.ts). -/
structure HeadingProblems where
  hasMultipleH1 : Bool
  hasNoH1 : Bool
  hasSkippedLevels : Bool
  deriving DecidableEq

/-- Translation of `detectHeadingIssues` (headings-analyzer.ts). -/
def detectHeadingIssues (headings : List Heading) : HeadingProblems :=
  let h1Count := (headings.filter (fun h => h.level == 1)).length
  { hasMultipleH1 := decide (1 < h1Count),
    hasNoH1 := decide (h1Count = 0),
    hasSkippedLevels := checkSkippedLevels headings }

/-! ## images-analyzer.ts -/

/-- Model of `ImageInfo` (types/analysis.ts).  `width`/`height` are
`Option (Option Int)`: the outer layer is TS `undefined` (attribute absent
or empty), the inner layer is `parseInt` returning `NaN`. -/
structure ImageInfo where
  src : String
  alt : Option String
  title : Option String
  width : Option (Option Int)
  height : Option (Option Int)
  loading : Option String
  deriving DecidableEq

/-- Models JS `parseInt(s)` (decimal): optional sign after leading
whitespace, then digits; `none` is `NaN`. -/
def parseIntJS (s : String) : Option Int :=
  let l := s.data.dropWhile isWs
  let (sign, rest) :=
    match l with
    | '-' :: t => ((-1 : Int), t)
    | '+' :: t => ((1 : Int), t)
    | t => ((1 : Int), t)
  let digits := rest.takeWhile (fun c => c.isDigit)
  if digits = [] then none
  else some (sign * (digitsToNat digits : Int))

/-- Loop body of `analyzeImages` (images-analyzer.ts): skip hidden images
and images without `src`; note `alt: alt || undefined` turns an explicit
empty `alt` attribute into `undefined`. -/
def imageOfElem (e : Elem) : Option ImageInfo :=
  if !isElementVisible e then none
  else
    match emptyToNone (getAttributeSafe e "src") with
    | none => none
    | some src =>
      let alt := getAttributeSafe e "alt"
      let title := getAttributeSafe e "title"
      let width := getAttributeSafe e "width"
      let height := getAttributeSafe e "height"
      let loading := getAttributeSafe e "loading"
      some { src := src,
             alt := emptyToNone alt,
             title := emptyToNone title,
             width := (emptyToNone width).map parseIntJS,
             height := (emptyToNone height).map parseIntJS,
             loading := if loading == some "lazy" || loading == some "eager"
                        then loading else none }

/-- Translation of `analyzeImages` (images-analyzer.ts). -/
def analyzeImages (doc : Doc) : List ImageInfo :=
  (getAllImages doc).filterMap imageOfElem

/-- Result of `countImagesByAlt` (images-analyzer.ts). -/
structure AltCounts where
  withAlt : Nat
  withoutAlt : Nat
  total : Nat
  deriving DecidableEq

/-- Truthiness test `img.alt && img.alt.trim().length > 0`. -/
def hasRealAlt (img : ImageInfo) : Bool :=
  match img.alt with
  | none => false
  | some a => !(jsTrim a == "")

/-- Translation of `countImagesByAlt` (images-analyzer.ts). -/
def countImagesByAlt (images : List ImageInfo) : AltCounts :=
  let withAlt := (images.filter hasRealAlt).length
  { withAlt := withAlt,
    withoutAlt := images.length - withAlt,
    total := images.length }

/-! ## links-analyzer.ts -/

/-- Link type tag of `LinkInfo` (types/analysis.ts). -/
inductive LinkType where
  | internal
  | external
  | anchor
  deriving DecidableEq

/-- Model of `LinkInfo` (types/analysis.ts). -/
structure LinkInfo where
  href : String
  anchorText : String
  type : LinkType
  rel : Option String
  target : Option String
  nofollow : Bool
  deriving DecidableEq

/-- The type classification inside `analyzeLinks` (links-analyzer.ts):
`#`-prefixed hrefs are anchors, then `isInternalLink` decides internal
versus external. -/
def linkTypeOf (hostFn : String → String) (href baseUrl : String) : LinkType :=
  if jsStartsWith href "#" then .anchor
  else if isInternalLink hostFn href baseUrl then .internal
  else .external

/-- Loop body of `analyzeLinks` (links-analyzer.ts): skip hidden links,
empty hrefs, `javascript:`/`mailto:`/`tel:` schemes and blank anchor text;
otherwise classify and resolve. -/
def linkOfElem (up : UrlPrims) (baseUrl : String) (e : Elem) : Option LinkInfo :=
  if !isElementVisible e then none
  else
    match emptyToNone (getAttributeSafe e "href") with
    | none => none
    | some href =>
      if jsStartsWith href "javascript:" || jsStartsWith href "mailto:"
          || jsStartsWith href "tel:" then none
      else
        let anchorText := (getTextContentSafe e).take 200
        if anchorText = "" then none
        else
          let rel := getAttributeSafe e "rel"
          let target := getAttributeSafe e "target"
          let type := linkTypeOf up.hostname href baseUrl
          let resolvedHref :=
            if type = .anchor then href else resolveUrl up href baseUrl
          some { href := resolvedHref, anchorText := anchorText, type := type,
                 rel := emptyToNone rel, target := emptyToNone target,
                 nofollow := hasNoFollow rel }

/-- Translation of `analyzeLinks` (links-analyzer.ts). -/
def analyzeLinks (up : UrlPrims) (doc : Doc) (baseUrl : String) :
    List LinkInfo :=
  (getAllLinks doc).filterMap (linkOfElem up baseUrl)

/-- Result of `categorizeLinks` (links-analyzer.ts). -/
structure LinkBuckets where
  internal : List LinkInfo
  external : List LinkInfo
  anchor : List LinkInfo
  deriving DecidableEq

/-- Translation of `categorizeLinks` (links-analyzer.ts). -/
def categorizeLinks (links : List LinkInfo) : LinkBuckets :=
  { internal := links.filter (fun l => l.type == .internal),
    external := links.filter (fun l => l.type == .external),
    anchor := links.filter (fun l => l.type == .anchor) }

/-- Translation of `countNofollowLinks` (links-analyzer.ts). -/
def countNofollowLinks (links : List LinkInfo) : Nat :=
  (links.filter (fun l => l.nofollow)).length

/-- The `genericPatterns` literal local to `findGenericAnchorLinks`
(links-analyzer.ts) — eight phrases; note this is not the thirteen-entry
`GENERIC_ANCHOR_PATTERNS` of constants.ts, which that function ignores. -/
def genericPatternsLocal : List String :=
  ["click here", "read more", "learn more", "more", "here", "this",
   "link", "click"]

/-- Translation of `findGenericAnchorLinks` (links-analyzer.ts): exact
match of the lowercased, trimmed anchor text against the local list. -/
def findGenericAnchorLinks (links : List LinkInfo) : List LinkInfo :=
  links.filter
    (fun l => genericPatternsLocal.contains (jsTrim (jsToLower l.anchorText)))

/-! ## schema-parser.ts -/

/-- Untyped JSON value produced by the platform `JSON.parse`. -/
inductive JsonVal where
  | null
  | bool (b : Bool)
  | num (q : ℚ)
  | str (s : String)
  | arr (elems : List JsonVal)
  | obj (fields : List (String × JsonVal))

/-- JS truthiness of a parsed JSON value. -/
def jsTruthy : JsonVal → Bool
  | .null => false
  | .bool b => b
  | .num q => !(q == 0)
  | .str s => !(s == "")
  | .arr _ => true
  | .obj _ => true

/-- Property access `v[key]` on a parsed JSON value (`undefined` is `none`).
`JSON.parse` keeps the last binding of a duplicated key, hence the
reversed lookup. -/
def jLookup : JsonVal → String → Option JsonVal
  | .obj fields, key => fields.reverse.lookup key
  | _, _ => none

mutual

/-- Models `String(v)` for a JSON value (used by `Array.prototype.join`);
`join` renders `null` as the empty string.  Number rendering uses the `ℚ`
representation — schema `@type` entries are strings in practice, so this
corner is never exercised by the claims. -/
def jsToStr : JsonVal → String
  | .null => "null"
  | .bool b => if b then "true" else "false"
  | .num q => toString q
  | .str s => s
  | .arr elems => jsJoinComma elems
  | .obj _ => "[object Object]"

/-- Element rendering of `Array.prototype.join`: `null` becomes `""`. -/
def jsJoinElem : JsonVal → String
  | .null => ""
  | v => jsToStr v

/-- Models `elems.join(',')` (the default separator of nested arrays). -/
def jsJoinComma : List JsonVal → String
  | [] => ""
  | [v] => jsJoinElem v
  | v :: rest => jsJoinElem v ++ "," ++ jsJoinComma rest

end

/-- Models `elems.join(sep)`. -/
def jsJoinSep (sep : String) : List JsonVal → String
  | [] => ""
  | [v] => jsJoinElem v
  | v :: rest => jsJoinElem v ++ sep ++ jsJoinSep sep rest

/-- Translation of `extractSchemaType` (schema-parser.ts): prefer a truthy
`@type` (array joined with `", "`), else flatten the `@type`s of a
non-empty `@graph` array, else `"Unknown"`. -/
def extractSchemaType (parsed : JsonVal) : String :=
  if !jsTruthy parsed then "Unknown"
  else
    let tv := jLookup parsed "@type"
    let tvTruthy := match tv with
      | some t => jsTruthy t
      | none => false
    match tv, tvTruthy with
    | some (.arr elems), true => jsJoinSep ", " elems
    | some t, true => jsToStr t
    | _, _ =>
      match jLookup parsed "@graph" with
      | some (.arr items) =>
        if items.length = 0 then "Unknown"
        else
          let mapped := items.map (fun item => jLookup item "@type")
          let truthy := mapped.filterMap fun o =>
            match o with
            | some v => if jsTruthy v then some v else none
            | none => none
          let flat := truthy.flatMap fun v =>
            match v with
            | .arr elems => elems
            | v => [v]
          if flat.length = 0 then "Unknown" else jsJoinSep ", " flat
      | _ => "Unknown"

/-- Model of `SchemaData` (types/analysis.ts). -/
structure SchemaData where
  type : String
  rawJson : String
  parsed : Option JsonVal
  isValid : Bool
  error : Option String

/-- Loop body of `parseSchema` for one non-blank script body: `JSON.parse`
in a `try`, catching parse failures locally. -/
def schemaRecordOf (jp : String → Except String JsonVal) (rawJson : String) :
    SchemaData :=
  match jp rawJson with
  | .ok parsed =>
    { type := extractSchemaType parsed, rawJson := rawJson,
      parsed := some parsed, isValid := true, error := none }
  | .error msg =>
    { type := "Unknown", rawJson := rawJson,
      parsed := none, isValid := false, error := some msg }

/-- Loop of `parseSchema` (schema-parser.ts): `continue` on blank bodies,
one record per remaining script. -/
def parseSchemaGo (jp : String → Except String JsonVal) :
    List Elem → List SchemaData
  | [] => []
  | s :: rest =>
    let rawJson := s.textContent
    if jsTrim rawJson = "" then parseSchemaGo jp rest
    else schemaRecordOf jp rawJson :: parseSchemaGo jp rest

/-- Translation of `parseSchema` (schema-parser.ts). -/
def parseSchema (jp : String → Except String JsonVal) (doc : Doc) :
    List SchemaData :=
  parseSchemaGo jp (getJSONLDScripts doc)

/-! ## parser.ts meta helpers and meta-extractor.ts -/

/-- First element matching `querySelector('meta[attr="value"]')`. -/
def findMetaBy (doc : Doc) (attr value : String) : Option Elem :=
  doc.elems.find? (fun e => e.tag == "meta" && getAttribute e attr == some value)

/-- Translation of `getMetaContent` (parser.ts): look the tag up by `name`
first, falling back to `property`; `content || null`. -/
def getMetaContent (doc : Doc) (nameOrProperty : String) : Option String :=
  let meta :=
    match findMetaBy doc "name" nameOrProperty with
    | some m => some m
    | none => findMetaBy doc "property" nameOrProperty
  match meta with
  | some m => emptyToNone (getAttribute m "content")
  | none => none

/-- Translation of `getTitle` (parser.ts):
`doc.querySelector('title')?.textContent?.trim() || null`. -/
def getTitle (doc : Doc) : Option String :=
  match doc.elems.find? (fun e => e.tag == "title") with
  | some e => emptyToNone (some (jsTrim e.textContent))
  | none => none

/-- Translation of `getCanonicalUrl` (parser.ts). -/
def getCanonicalUrl (doc : Doc) : Option String :=
  match doc.elems.find?
      (fun e => e.tag == "link" && getAttribute e "rel" == some "canonical") with
  | some l => emptyToNone (getAttribute l "href")
  | none => none

/-- Translation of `getFaviconUrl` (parser.ts): try the three `rel` values
in order and stop at the first matching element, whether or not it has an
`href`. -/
def getFaviconUrl (doc : Doc) : Option String :=
  match doc.elems.find?
      (fun e => e.tag == "link" && getAttribute e "rel" == some "icon") with
  | some l => emptyToNone (getAttribute l "href")
  | none =>
    match doc.elems.find?
        (fun e => e.tag == "link" && getAttribute e "rel" == some "shortcut icon") with
    | some l => emptyToNone (getAttribute l "href")
    | none =>
      match doc.elems.find?
          (fun e => e.tag == "link" && getAttribute e "rel" == some "apple-touch-icon") with
      | some l => emptyToNone (getAttribute l "href")
      | none => none

/-- Translation of `getLanguage` (parser.ts):
`doc.querySelector('html')?.getAttribute('lang') || null`. -/
def getLanguage (doc : Doc) : Option String :=
  match doc.elems.find? (fun e => e.tag == "html") with
  | some h => emptyToNone (getAttribute h "lang")
  | none => none

/-- Leftmost case-insensitive match of the regex `/charset=([^;]+)/i`:
scan for `charset=` and capture at least one following non-`;` character. -/
def charsetScan : List Char → Option String
  | [] => none
  | c :: cs =>
    let lower := (c :: cs).map Char.toLower
    if ("charset=".data).isPrefixOf lower then
      let tail := (c :: cs).drop 8
      let captured := tail.takeWhile (fun d => !(d = ';'))
      if captured = [] then charsetScan cs
      else some (String.mk captured)
    else charsetScan cs

/-- Translation of `getCharset` (parser.ts): a `charset` attribute on any
meta tag wins, else parse the `content` of a
`meta[http-equiv="Content-Type"]` tag; captures are trimmed. -/
def getCharset (doc : Doc) : Option String :=
  match doc.elems.find? (fun e => e.tag == "meta" && hasAttributeB e "charset") with
  | some m => emptyToNone (getAttribute m "charset")
  | none =>
    match doc.elems.find?
        (fun e => e.tag == "meta" && getAttribute e "http-equiv" == some "Content-Type") with
    | some m =>
      match emptyToNone (getAttribute m "content") with
      | some content =>
        match charsetScan content.data with
        | some captured => some (jsTrim captured)
        | none => none
      | none => none
    | none => none

/-- Model of `OpenGraphTag` (types/analysis.ts). -/
structure OpenGraphTag where
  property : String
  content : String
  deriving DecidableEq

/-- Model of `TwitterCardTag` (types/analysis.ts). -/
structure TwitterCardTag where
  name : String
  content : String
  deriving DecidableEq

/-- Model of `MetaTag` (types/analysis.ts). -/
structure MetaTag where
  name : Option String
  property : Option String
  content : String
  deriving DecidableEq

/-- Translation of `getOpenGraphTags` (parser.ts):
`querySelectorAll('meta[property^="og:"]')`. -/
def getOpenGraphTags (doc : Doc) : List OpenGraphTag :=
  (doc.elems.filter
      (fun e => e.tag == "meta"
        && jsStartsWith ((getAttribute e "property").getD "") "og:")).map
    (fun e => { property := (getAttribute e "property").getD "",
                content := (getAttribute e "content").getD "" })

/-- Translation of `getTwitterCardTags` (parser.ts):
`querySelectorAll('meta[name^="twitter:"]')`. -/
def getTwitterCardTags (doc : Doc) : List TwitterCardTag :=
  (doc.elems.filter
      (fun e => e.tag == "meta"
        && jsStartsWith ((getAttribute e "name").getD "") "twitter:")).map
    (fun e => { name := (getAttribute e "name").getD "",
                content := (getAttribute e "content").getD "" })

/-- Translation of `getAllMetaTags` (parser.ts). -/
def getAllMetaTags (doc : Doc) : List Elem :=
  doc.elems.filter (fun e => e.tag == "meta")

/-- Model of `MetaData` (types/analysis.ts). -/
structure MetaData where
  title : Option String
  description : Option String
  keywords : Option String
  robots : Option String
  viewport : Option String
  charset : Option String
  language : Option String
  canonicalUrl : Option String
  favicon : Option String
  ogTags : List OpenGraphTag
  twitterTags : List TwitterCardTag
  other : List MetaTag
  deriving DecidableEq

/-- Loop body of `extractOtherMetaTags` (meta-extractor.ts). -/
def otherMetaOfElem (e : Elem) : Option MetaTag :=
  let name := getAttribute e "name"
  let property := getAttribute e "property"
  match emptyToNone (getAttribute e "content") with
  | none => none
  | some content =>
    let nameS := (emptyToNone name).getD ""
    let propS := (emptyToNone property).getD ""
    if propS ≠ "" && (jsStartsWith propS "og:" || jsStartsWith propS "twitter:") then none
    else if nameS ≠ "" && (jsStartsWith nameS "og:" || jsStartsWith nameS "twitter:") then none
    else if nameS ≠ ""
        && ["description", "keywords", "robots", "viewport"].contains
          (jsToLower nameS) then none
    else if hasAttributeB e "charset" || hasAttributeB e "http-equiv" then none
    else some { name := emptyToNone name, property := emptyToNone property,
                content := content }

/-- Translation of `extractOtherMetaTags` (meta-extractor.ts). -/
def extractOtherMetaTags (doc : Doc) : List MetaTag :=
  (getAllMetaTags doc).filterMap otherMetaOfElem

/-- Translation of `extractMetadata` (meta-extractor.ts). -/
def extractMetadata (doc : Doc) : MetaData :=
  { title := getTitle doc,
    description := getMetaContent doc "description",
    keywords := getMetaContent doc "keywords",
    robots := getMetaContent doc "robots",
    viewport := getMetaContent doc "viewport",
    charset := getCharset doc,
    language := getLanguage doc,
    canonicalUrl := getCanonicalUrl doc,
    favicon := getFaviconUrl doc,
    ogTags := getOpenGraphTags doc,
    twitterTags := getTwitterCardTags doc,
    other := extractOtherMetaTags doc }

/-! ## issue-detector.ts -/

/-- Issue severity (types/analysis.ts). -/
inductive Severity where
  | critical
  | warning
  | recommendation
  deriving DecidableEq

/-- Issue category (types/analysis.ts). -/
inductive Category where
  | meta
  | content
  | images
  | links
  | schema
  | performance
  | struct
  deriving DecidableEq

/-- Model of `SEOIssue` (types/analysis.ts). -/
structure SEOIssue where
  severity : Severity
  category : Category
  message : String
  suggestion : Option String
  deriving DecidableEq

/-- Model of `SEO_THRESHOLDS.title` (constants.ts). -/
def titleMin : Nat := 30

/-- Model of `SEO_THRESHOLDS.title` (constants.ts). -/
def titleMax : Nat := 60

/-- Model of `SEO_THRESHOLDS.description` (constants.ts). -/
def descriptionMin : Nat := 120

/-- Model of `SEO_THRESHOLDS.description` (constants.ts). -/
def descriptionMax : Nat := 160

/-- Models `q.toFixed(0)` for the non-negative percentages that occur. -/
def ratToFixed0 (q : ℚ) : String := toString (round q : ℤ)

/-- Translation of `checkMetaIssues` (issue-detector.ts). -/
def checkMetaIssues (metadata : MetaData) : List SEOIssue :=
  let titleIssues :=
    match metadata.title with
    | none =>
      [{ severity := .critical, category := .meta,
         message := "Missing page title",
         suggestion := some "Add a descriptive <title> tag to your page. Titles should be 50-60 characters long." }]
    | some title =>
      let titleLength := title.length
      if titleLength < titleMin then
        [{ severity := .warning, category := .meta,
           message := s!"Title is too short ({titleLength} characters)",
           suggestion := some s!"Title should be at least {titleMin} characters. Current: \"{title}\"" }]
      else if titleLength > titleMax then
        [{ severity := .warning, category := .meta,
           message := s!"Title is too long ({titleLength} characters)",
           suggestion := some s!"Title should be no more than {titleMax} characters. It may be truncated in search results." }]
      else []
  let descriptionIssues :=
    match metadata.description with
    | none =>
      [{ severity := .warning, category := .meta,
         message := "Missing meta description",
         suggestion := some "Add a meta description tag. Descriptions should be 150-160 characters and compelling." }]
    | some description =>
      let descLength := description.length
      if descLength < descriptionMin then
        [{ severity := .warning, category := .meta,
           message := s!"Meta description is too short ({descLength} characters)",
           suggestion := some s!"Description should be at least {descriptionMin} characters." }]
      else if descLength > descriptionMax then
        [{ severity := .recommendation, category := .meta,
           message := s!"Meta description is too long ({descLength} characters)",
           suggestion := some s!"Description should be no more than {descriptionMax} characters to avoid truncation." }]
      else []
  let canonicalIssues :=
    if metadata.canonicalUrl.isNone then
      [{ severity := .recommendation, category := .meta,
         message := "Missing canonical URL",
         suggestion := some "Add a canonical link tag to prevent duplicate content issues." }]
    else []
  let viewportIssues :=
    if metadata.viewport.isNone then
      [{ severity := .warning, category := .meta,
         message := "Missing viewport meta tag",
         suggestion := some "Add <meta name=\"viewport\" content=\"width=device-width, initial-scale=1\"> for mobile responsiveness." }]
    else []
  let languageIssues :=
    if metadata.language.isNone then
      [{ severity := .recommendation, category := .meta,
         message := "Missing language attribute",
         suggestion := some "Add lang attribute to <html> tag (e.g., <html lang=\"en\">)." }]
    else []
  let ogIssues :=
    if metadata.ogTags.length = 0 then
      [{ severity := .recommendation, category := .meta,
         message := "Missing Open Graph tags",
         suggestion := some "Add Open Graph tags for better social media sharing (og:title, og:description, og:image)." }]
    else []
  titleIssues ++ descriptionIssues ++ canonicalIssues ++ viewportIssues
    ++ languageIssues ++ ogIssues

/-- Translation of `checkHeadingIssues` (issue-detector.ts). -/
def checkHeadingIssues (headings : List Heading) : List SEOIssue :=
  let headingProblems := detectHeadingIssues headings
  let multipleH1Issues :=
    if headingProblems.hasMultipleH1 then
      let h1Count := (headings.filter (fun h => h.level == 1)).length
      [{ severity := .critical, category := .struct,
         message := s!"Multiple H1 tags found ({h1Count})",
         suggestion := some "Use only one H1 tag per page. H1 should represent the main page topic." }]
    else []
  let noH1Issues :=
    if headingProblems.hasNoH1 then
      [{ severity := .critical, category := .struct,
         message := "No H1 tag found",
         suggestion := some "Add an H1 tag to clearly identify the main topic of the page." }]
    else []
  let skippedIssues :=
    if headingProblems.hasSkippedLevels then
      [{ severity := .warning, category := .struct,
         message := "Heading hierarchy skips levels",
         suggestion := some "Maintain proper heading hierarchy (H1 → H2 → H3). Don\x27t skip levels (e.g., H1 → H3)." }]
    else []
  let emptyHeadings := headings.filter (fun h => jsTrim h.text == "")
  let emptyIssues :=
    if 0 < emptyHeadings.length then
      let emptyCount := emptyHeadings.length
      [{ severity := .warning, category := .content,
         message := s!"Found {emptyCount} empty heading(s)",
         suggestion := some "All headings should contain meaningful text." }]
    else []
  multipleH1Issues ++ noH1Issues ++ skippedIssues ++ emptyIssues

/-- Falsiness test `!img.alt || img.alt.trim().length === 0` of
`checkImageIssues`. -/
def missingAltB (img : ImageInfo) : Bool :=
  match img.alt with
  | none => true
  | some a => jsTrim a == ""

/-- Translation of `checkImageIssues` (issue-detector.ts). -/
def checkImageIssues (images : List ImageInfo) : List SEOIssue :=
  let imagesWithoutAlt := images.filter missingAltB
  let missingCount := imagesWithoutAlt.length
  let totalCount := images.length
  let altIssues :=
    if 0 < missingCount then
      let percentage : ℚ := ((missingCount : ℚ) / (totalCount : ℚ)) * 100
      if 50 < percentage then
        let pctStr := ratToFixed0 percentage
        [{ severity := .critical, category := .images,
           message := s!"{missingCount} of {totalCount} images missing alt text ({pctStr}%)",
           suggestion := some "Add descriptive alt text to all images for accessibility and SEO." }]
      else if 0 < percentage then
        [{ severity := .warning, category := .images,
           message := s!"{missingCount} of {totalCount} images missing alt text",
           suggestion := some "Add descriptive alt text to all images for better accessibility." }]
      else []
    else []
  let imagesWithEmptyAlt := images.filter (fun img => img.alt == some "")
  let emptyAltCount := imagesWithEmptyAlt.length
  let emptyAltIssues :=
    if 0 < emptyAltCount then
      [{ severity := .recommendation, category := .images,
         message := s!"{emptyAltCount} image(s) with empty alt attribute",
         suggestion := some "Empty alt (alt=\"\") should only be used for decorative images. Add descriptive alt text for content images." }]
    else []
  altIssues ++ emptyAltIssues

/-- Translation of `checkLinkIssues` (issue-detector.ts). -/
def checkLinkIssues (links : List LinkInfo) : List SEOIssue :=
  let genericLinks := findGenericAnchorLinks links
  let genericCount := genericLinks.length
  let genericIssues :=
    if 0 < genericCount then
      [{ severity := .recommendation, category := .links,
         message := s!"{genericCount} link(s) with generic anchor text",
         suggestion := some "Use descriptive anchor text instead of generic phrases like \"click here\" or \"read more\"." }]
    else []
  let anchorLinks := links.filter (fun l => l.type == .anchor)
  let anchorCount := anchorLinks.length
  let anchorIssues :=
    if 0 < anchorCount then
      [{ severity := .recommendation, category := .links,
         message := s!"Found {anchorCount} anchor link(s)",
         suggestion := some "Ensure all anchor links point to existing IDs on the page." }]
    else []
  let externalWithoutNofollow :=
    links.filter (fun l => l.type == .external && !l.nofollow)
  let extCount := externalWithoutNofollow.length
  let nofollowIssues :=
    if 20 < extCount then
      [{ severity := .recommendation, category := .links,
         message := s!"{extCount} external links without nofollow",
         suggestion := some "Consider adding rel=\"nofollow\" to external links you don\x27t want to endorse." }]
    else []
  genericIssues ++ anchorIssues ++ nofollowIssues

/-- Translation of `checkSchemaIssues` (issue-detector.ts). -/
def checkSchemaIssues (schemas : List SchemaData) : List SEOIssue :=
  let invalidSchemas := schemas.filter (fun s => !s.isValid)
  let invalidCount := invalidSchemas.length
  let invalidIssues :=
    if 0 < invalidCount then
      [{ severity := .warning, category := .schema,
         message := s!"{invalidCount} invalid JSON-LD schema(s)",
         suggestion := some "Fix JSON syntax errors in structured data." }]
    else []
  let missingIssues :=
    if schemas.length = 0 then
      [{ severity := .recommendation, category := .schema,
         message := "No structured data (JSON-LD) found",
         suggestion := some "Add schema.org structured data to help search engines understand your content better." }]
    else []
  invalidIssues ++ missingIssues

/-- Translation of `detectIssues` (issue-detector.ts). -/
def detectIssues (metadata : MetaData) (headings : List Heading)
    (images : List ImageInfo) (links : List LinkInfo)
    (schemas : List SchemaData) : List SEOIssue :=
  checkMetaIssues metadata ++ checkHeadingIssues headings
    ++ checkImageIssues images ++ checkLinkIssues links
    ++ checkSchemaIssues schemas

/-! ## seo-analyzer.ts (aggregator) -/

/-- Model of `Statistics` (types/analysis.ts). -/
structure Statistics where
  totalWords : Nat
  totalCharacters : Nat
  totalImages : Nat
  imagesWithAlt : Nat
  imagesWithoutAlt : Nat
  totalLinks : Nat
  internalLinks : Nat
  externalLinks : Nat
  anchorLinks : Nat
  h1Count : Nat
  schemaCount : Nat
  uniqueKeywords : Nat
  deriving DecidableEq

/-- Translation of `calculateStatistics` (seo-analyzer.ts). -/
def calculateStatistics (text : String) (headings : List Heading)
    (images : List ImageInfo) (links : List LinkInfo)
    (schemas : List SchemaData) (keywords : List KeywordDensity) :
    Statistics :=
  let imageStats := countImagesByAlt images
  let linkStats := categorizeLinks links
  let words := jsWords text
  { totalWords := words.length,
    totalCharacters := text.length,
    totalImages := images.length,
    imagesWithAlt := imageStats.withAlt,
    imagesWithoutAlt := imageStats.withoutAlt,
    totalLinks := links.length,
    internalLinks := linkStats.internal.length,
    externalLinks := linkStats.external.length,
    anchorLinks := linkStats.anchor.length,
    h1Count := (headings.filter (fun h => h.level == 1)).length,
    schemaCount := (schemas.filter (fun s => s.isValid)).length,
    uniqueKeywords := getTotalUniqueKeywords keywords }

/-- Model of `SEOAnalysisResult` (types/analysis.ts). -/
structure SEOAnalysisResult where
  url : String
  fetchedAt : String
  metadata : MetaData
  headings : List Heading
  images : List ImageInfo
  links : List LinkInfo
  schema : List SchemaData
  readability : ReadabilityScore
  keywords : List KeywordDensity
  issues : List SEOIssue
  stats : Statistics

/-- Translation of `analyzeSEO` (seo-analyzer.ts) after HTML parsing: it
runs every analyzer on the already-parsed document view and assembles the
result.  The impure `new Date().toISOString()` is the `fetchedAt`
parameter; `jp` and `up` are the platform JSON/URL primitives. -/
def analyzeSEO (jp : String → Except String JsonVal) (up : UrlPrims)
    (doc : Doc) (url : String) (fetchedAt : String) : SEOAnalysisResult :=
  let allText := extractAllText doc
  let metadata := extractMetadata doc
  let headings := analyzeHeadings doc
  let images := analyzeImages doc
  let links := analyzeLinks up doc url
  let schema := parseSchema jp doc
  let readability := calculateReadability allText
  let keywords := analyzeKeywords allText
  let issues := detectIssues metadata headings images links schema
  let stats := calculateStatistics allText headings images links schema keywords
  { url := url, fetchedAt := fetchedAt, metadata := metadata,
    headings := headings, images := images, links := links, schema := schema,
    readability := readability, keywords := keywords, issues := issues,
    stats := stats }

/-- Translation of `calculateSEOScore` (seo-analyzer.ts). -/
def calculateSEOScore (result : SEOAnalysisResult) : ℤ :=
  let score0 : ℤ := 100
  let criticalIssues :=
    (result.issues.filter (fun i => i.severity == .critical)).length
  let score1 := score0 - criticalIssues * 15
  let warnings :=
    (result.issues.filter (fun i => i.severity == .warning)).length
  let score2 := score1 - warnings * 5
  let recommendations :=
    (result.issues.filter (fun i => i.severity == .recommendation)).length
  let score3 := score2 - recommendations * 2
  let score4 := if 60 ≤ result.readability.fleschScore then score3 + 5 else score3
  let score5 := if 0 < result.stats.schemaCount then score4 + 5 else score4
  max 0 (min 100 score5)

/-! ## Specification-side definitions

These definitions follow the wording of the specification/claims (not the
source); each claim theorem relates them to the translations above. -/

/-- Claim C6 wording: count the non-overlapping vowel-group runs matching
`[aeiouy]{1,2}` — each maximal vowel run of length `k` decomposes into
`⌈k/2⌉` such groups. -/
def specVowelGroups : List Char → Nat
  | [] => 0
  | c :: cs =>
    if isVowelY c then
      let run := 1 + (cs.takeWhile isVowelY).length
      (run + 1) / 2 + specVowelGroups (cs.dropWhile isVowelY)
    else specVowelGroups cs
termination_by l => l.length
decreasing_by
  · simp only [List.length_cons]
    exact Nat.lt_succ_of_le (List.dropWhile_suffix isVowelY).sublist.length_le
  · simp

/-- Claim C6 restated as an algorithm: length ≤ 3 gives one syllable;
otherwise strip one trailing consonant+`es`/`ed`/`e` suffix, strip one
leading `y`, and count vowel-group runs, defaulting to 1 when none. -/
def countSyllablesSpec (word : String) : Nat :=
  let w := (jsTrim (jsToLower word)).data
  if w.length ≤ 3 then 1
  else
    let stripped := stripLeadY (stripTrailing w)
    let m := specVowelGroups stripped
    if m = 0 then 1 else m

/-- Lexical scheme test backing claim C3's phrase "no scheme": an RFC 3986
scheme is a letter followed by letters, digits, `+`, `-` or `.`, then `:`. -/
def isSchemeTailChar (c : Char) : Bool :=
  c.isAlpha || c.isDigit || c = '+' || c = '-' || c = '.'

/-- Tests whether a href starts with a URL scheme. -/
def hasUrlScheme (s : String) : Bool :=
  match s.data with
  | [] => false
  | c :: cs =>
    c.isAlpha &&
      (match cs.dropWhile isSchemeTailChar with
       | ':' :: _ => true
       | _ => false)

/-- Claim C3's classification, in its own words: `#`-prefixed hrefs are
anchors; absolute hrefs (ones carrying a scheme) whose hostname equals the
base hostname, and relative hrefs (no scheme, not `//`-prefixed), are
internal; every other href is external. -/
def claimLinkType (hostFn : String → String) (href baseUrl : String) :
    LinkType :=
  if jsStartsWith href "#" then .anchor
  else if (hasUrlScheme href && hostFn href == hostFn baseUrl)
      || (!hasUrlScheme href && !jsStartsWith href "//") then .internal
  else .external

/-- Claim C5's value before the code's final rounding: the Flesch formula
over the counting functions, clamped into [0,100]. -/
def fleschClamped (text : String) : ℚ :=
  let w : ℚ := (countWords text : ℚ)
  let s : ℚ := (countSentences text : ℚ)
  let y : ℚ := (countTotalSyllables text : ℚ)
  max 0 (min 100 (206.835 - 1.015 * (w / s) - 84.6 * (y / w)))

/-! ## Concrete fixtures used by witnesses and counterexamples -/

/-- Concrete URL primitives: the hostnames the browser `URL` class returns
for the three URLs exercised below, and pass-through resolution. -/
def upX : UrlPrims :=
  { hostname := fun s =>
      if s = "https://example.com/" then "example.com"
      else if s = "ftp://evil.com/x" then "evil.com"
      else "",
    resolve := fun href _ => href }

/-- Concrete JSON primitive for documents without scripts. -/
def jpNone : String → Except String JsonVal :=
  fun _ => .error "Unexpected token"

/-- Document with a single visible image carrying `src="pic.png"` and an
explicit empty `alt=""` attribute (claim C2's failing input). -/
def docEmptyAlt : Doc :=
  { elems := [{ tag := "img", attrs := [("src", "pic.png"), ("alt", "")],
                textContent := "", cssHidden := false }],
    bodyText := "" }

/-- Concrete JSON primitive behaving like `JSON.parse` on the two script
bodies of `docSchemas`. -/
def jpW : String → Except String JsonVal :=
  fun s =>
    if s = "\x7b\"@type\": \"Article\"\x7d" then .ok (.obj [("@type", .str "Article")])
    else .error "Unexpected token b in JSON at position 1"

/-- Document with an invalid JSON-LD script, a valid one after it, and a
blank one (claim C4's witness input). -/
def docSchemas : Doc :=
  { elems :=
      [{ tag := "script", attrs := [("type", "application/ld+json")],
         textContent := "\x7bbad", cssHidden := false },
       { tag := "script", attrs := [("type", "application/ld+json")],
         textContent := "\x7b\"@type\": \"Article\"\x7d", cssHidden := false },
       { tag := "script", attrs := [("type", "application/ld+json")],
         textContent := "   ", cssHidden := false }],
    bodyText := "" }

/-- Document with two visible non-blank headings, one blank heading and
one style-hidden heading (claim C8's witness input). -/
def docHeadings : Doc :=
  { elems :=
      [{ tag := "h1", attrs := [], textContent := "Main Title", cssHidden := false },
       { tag := "h3", attrs := [], textContent := "Sub", cssHidden := false },
       { tag := "h2", attrs := [], textContent := "   ", cssHidden := false },
       { tag := "h2", attrs := [], textContent := "Hidden", cssHidden := true },
       { tag := "p", attrs := [], textContent := "text", cssHidden := false }],
    bodyText := "" }

/-- An empty `MetaData` record. -/
def emptyMeta : MetaData :=
  { title := none, description := none, keywords := none, robots := none,
    viewport := none, charset := none, language := none, canonicalUrl := none,
    favicon := none, ogTags := [], twitterTags := [], other := [] }

/-- A zeroed `Statistics` record. -/
def zeroStats : Statistics :=
  { totalWords := 0, totalCharacters := 0, totalImages := 0,
    imagesWithAlt := 0, imagesWithoutAlt := 0, totalLinks := 0,
    internalLinks := 0, externalLinks := 0, anchorLinks := 0, h1Count := 0,
    schemaCount := 0, uniqueKeywords := 0 }

/-- An analysis result carrying fifty critical issues (claim C1's clamping
witness). -/
def resultFiftyCritical : SEOAnalysisResult :=
  { url := "https://example.com/", fetchedAt := "2026-01-01T00:00:00.000Z",
    metadata := emptyMeta, headings := [], images := [], links := [],
    schema := [], readability := calculateReadability "", keywords := [],
    issues := List.replicate 50
      { severity := .critical, category := .meta,
        message := "Missing page title", suggestion := none },
    stats := zeroStats }

/-- The `ImageInfo` the extractor actually produces from `docEmptyAlt`:
the explicit empty alt has been erased to `none`. -/
def imgNoAlt : ImageInfo :=
  { src := "pic.png", alt := none, title := none,
    width := none, height := none, loading := none }

/-- The critical missing-alt issue the pipeline emits on `docEmptyAlt`. -/
def critAltIssue : SEOIssue :=
  { severity := .critical, category := .images,
    message := "1 of 1 images missing alt text (100%)",
    suggestion := some "Add descriptive alt text to all images for accessibility and SEO." }

/-- An `ImageInfo` with an explicit empty alt, as claim C2 expects the
extractor to produce it. -/
def imgEmptyAltInfo : ImageInfo :=
  { src := "pic.png", alt := some "", title := none,
    width := none, height := none, loading := none }

/-- A link with the given anchor text (claim C10's fixtures). -/
def mkLink (t : String) : LinkInfo :=
  { href := "https://example.com/a", anchorText := t, type := .internal,
    rel := none, target := none, nofollow := false }

/-- Filtered token sequence for claim C7's witness. -/
def wsBuy : List String := ["buy", "buy"]

/-- The keyword-density entry `analyzeNGram` produces on `wsBuy` for
`n = 1`: the 1-gram `buy` occurs twice among two tokens, i.e. 100%. -/
def kwBuy : KeywordDensity :=
  { phrase := "buy", count := 2, percentage := 100, nGram := 1 }

/-! ## Helper lemmas -/

theorem emptyToNone_ne_some_empty (o : Option String) : emptyToNone o ≠ some "" := by
  cases o with
  | none => simp [emptyToNone]
  | some s =>
    by_cases h : s = "" <;> simp [emptyToNone, h]

theorem runsByAux_eq_nil_iff (keep : Char → Bool) :
    ∀ (l : List Char) (acc : List Char),
      runsByAux keep l acc = [] ↔
        (acc = [] ∧ l.all (fun c => !keep c) = true) := by
  intro l
  induction l with
  | nil =>
    intro acc
    by_cases h : acc = [] <;> simp [runsByAux, h]
  | cons c cs ih =>
    intro acc
    by_cases h : keep c = true
    · simp only [runsByAux, if_pos h, ih]
      simp [h]
    · simp only [runsByAux, if_neg (by simp [h] : ¬keep c = true)]
      by_cases ha : acc = []
      · simp only [if_pos ha, ih]
        simp [ha, h]
      · simp only [if_neg ha]
        simp [ha, h]

theorem runsBy_eq_nil_iff (keep : Char → Bool) (l : List Char) :
    runsBy keep l = [] ↔ l.all (fun c => !keep c) = true := by
  unfold runsBy
  rw [runsByAux_eq_nil_iff]
  simp

theorem dropWhile_forall_iff (p : Char → Bool) (l : List Char) :
    (∀ x ∈ l.dropWhile p, p x = true) ↔ ∀ x ∈ l, p x = true := by
  constructor
  · intro h x hx
    rw [← List.takeWhile_append_dropWhile p l] at hx
    rcases List.mem_append.mp hx with h1 | h2
    · exact List.mem_takeWhile_imp h1
    · exact h x h2
  · intro h x hx
    exact h x ((List.dropWhile_suffix p).sublist.subset hx)

theorem trimChars_eq_nil_iff (l : List Char) :
    trimChars l = [] ↔ l.all isWs = true := by
  unfold trimChars
  rw [List.reverse_eq_nil_iff, List.dropWhile_eq_nil_iff]
  constructor
  · intro h
    rw [List.all_eq_true]
    rw [← dropWhile_forall_iff isWs l]
    intro x hx
    exact h x (List.mem_reverse.mpr hx)
  · intro h x hx
    rw [List.all_eq_true] at h
    exact h x ((List.dropWhile_suffix isWs).sublist.subset (List.mem_reverse.mp hx))

theorem jsTrim_eq_empty_iff (s : String) :
    jsTrim s = "" ↔ s.data.all isWs = true := by
  rw [← trimChars_eq_nil_iff]
  constructor
  · intro h
    have := congrArg String.data h
    simpa [jsTrim] using this
  · intro h
    show String.mk (trimChars s.data) = ""
    rw [h]

theorem jsWords_eq_nil_iff (s : String) :
    jsWords s = [] ↔ s.data.all isWs = true := by
  unfold jsWords
  rw [runsBy_eq_nil_iff]
  simp

theorem countWords_ne_zero (text : String) (h : jsTrim text ≠ "") :
    countWords text ≠ 0 := by
  unfold countWords
  rw [if_neg h]
  intro hlen
  apply h
  rw [jsTrim_eq_empty_iff, ← jsWords_eq_nil_iff]
  exact List.length_eq_zero.mp hlen

theorem countSentences_ne_zero (text : String) (h : jsTrim text ≠ "") :
    countSentences text ≠ 0 := by
  unfold countSentences
  rw [if_neg h]
  show (if punctRuns text.data = 0 then 1 else punctRuns text.data) ≠ 0
  split
  · exact Nat.one_ne_zero
  · omega

theorem toFixedQ_one_bounds (q : ℚ) (h0 : 0 ≤ q) (h1 : q ≤ 100) :
    0 ≤ toFixedQ 1 q ∧ toFixedQ 1 q ≤ 100 := by
  unfold toFixedQ
  have hr0 : (0 : ℤ) ≤ round (q * 10 ^ 1) := by
    rw [round_eq]
    rw [Int.floor_nonneg]
    nlinarith
  have hr1 : round (q * 10 ^ 1) ≤ 1000 := by
    rw [round_eq]
    have hle : q * 10 ^ 1 + 1 / 2 ≤ (1000 : ℚ) + 1 / 2 := by nlinarith
    calc ⌊q * 10 ^ 1 + 1 / 2⌋ ≤ ⌊(1000 : ℚ) + 1 / 2⌋ := Int.floor_le_floor hle
      _ = 1000 := by
            rw [Int.floor_eq_iff]
            norm_num
  constructor
  · positivity
  · rw [div_le_iff₀ (by norm_num)]
    calc ((round (q * 10 ^ 1) : ℤ) : ℚ) ≤ ((1000 : ℤ) : ℚ) := by exact_mod_cast hr1
      _ = 100 * 10 ^ 1 := by norm_num

theorem filterMap_eq_map_filter {α β : Type} (f : α → Option β)
    (p : α → Bool) (g : α → β)
    (hf : ∀ a, f a = if p a then some (g a) else none) (l : List α) :
    l.filterMap f = (l.filter p).map g := by
  induction l with
  | nil => rfl
  | cons a l ih =>
    by_cases h : p a = true
    · rw [List.filterMap_cons, hf a, if_pos h, List.filter_cons_of_pos h,
        List.map_cons, ih]
    · rw [List.filterMap_cons, hf a, if_neg h,
        List.filter_cons_of_neg (by simpa using h), ih]

theorem twoStepList {motive : List Char → Prop} (h0 : motive [])
    (h1 : ∀ c, motive [c])
    (h2 : ∀ c d cs, motive cs → motive (d :: cs) → motive (c :: d :: cs)) :
    ∀ l, motive l
  | [] => h0
  | [c] => h1 c
  | c :: d :: cs =>
    h2 c d cs (twoStepList h0 h1 h2 cs) (twoStepList h0 h1 h2 (d :: cs))

theorem dropWhile_head_not (p : Char → Bool) :
    ∀ (l : List Char) (x : Char), (l.dropWhile p).head? = some x → p x = false := by
  intro l
  induction l with
  | nil => intro x hx; simp at hx
  | cons c cs ih =>
    intro x hx
    by_cases hc : p c = true
    · rw [List.dropWhile_cons_of_pos hc] at hx
      exact ih x hx
    · rw [List.dropWhile_cons_of_neg hc] at hx
      simp at hx
      rw [← hx]
      simpa using hc

theorem vowelScan_append_run :
    ∀ t : List Char, ∀ rest : List Char, (∀ c ∈ t, isVowelY c = true) →
      (∀ x, rest.head? = some x → isVowelY x = false) →
      vowelScan (t ++ rest) = (t.length + 1) / 2 + vowelScan rest := by
  intro t
  induction t using twoStepList with
  | h0 => intro rest _ _; simp
  | h1 c =>
    intro rest ht hrest
    have hc : isVowelY c = true := ht c (by simp)
    cases rest with
    | nil => simp [vowelScan, hc]
    | cons r rs =>
      have hr : isVowelY r = false := hrest r rfl
      simp [vowelScan, hc, hr]
  | h2 c d cs ih _ =>
    intro rest ht hrest
    have hc : isVowelY c = true := ht c (by simp)
    have hd : isVowelY d = true := ht d (by simp)
    have hcs : ∀ x ∈ cs, isVowelY x = true := by
      intro x hx; exact ht x (by simp [hx])
    show vowelScan (c :: d :: (cs ++ rest)) = _
    rw [vowelScan, if_pos hc, if_pos hd, ih rest hcs hrest]
    simp only [List.length_cons]
    omega

theorem vowelScan_eq_spec_aux :
    ∀ (n : Nat) (l : List Char), l.length ≤ n → vowelScan l = specVowelGroups l := by
  intro n
  induction n with
  | zero =>
    intro l hl
    have : l = [] := List.length_eq_zero.mp (Nat.le_zero.mp hl)
    subst this
    simp [vowelScan, specVowelGroups]
  | succ n ih =>
    intro l hl
    cases l with
    | nil => simp [vowelScan, specVowelGroups]
    | cons c cs =>
      simp only [List.length_cons, Nat.succ_le_succ_iff] at hl
      by_cases hc : isVowelY c = true
      · have hsplit : c :: cs =
            (c :: cs.takeWhile isVowelY) ++ cs.dropWhile isVowelY := by
          simp [List.takeWhile_append_dropWhile]
        have h1 : vowelScan (c :: cs) =
            ((c :: cs.takeWhile isVowelY).length + 1) / 2 +
              vowelScan (cs.dropWhile isVowelY) := by
          conv_lhs => rw [hsplit]
          apply vowelScan_append_run
          · intro x hx
            rcases List.mem_cons.mp hx with rfl | hx2
            · exact hc
            · exact List.mem_takeWhile_imp hx2
          · intro x hx
            exact dropWhile_head_not isVowelY cs x hx
        have h2 : specVowelGroups (c :: cs) =
            (1 + (cs.takeWhile isVowelY).length + 1) / 2 +
              specVowelGroups (cs.dropWhile isVowelY) := by
          rw [specVowelGroups]
          rw [if_pos hc]
        have h3 : vowelScan (cs.dropWhile isVowelY) =
            specVowelGroups (cs.dropWhile isVowelY) :=
          ih _ (le_trans (List.dropWhile_suffix isVowelY).sublist.length_le hl)
        rw [h1, h2, h3]
        simp only [List.length_cons]
        omega
      · cases cs with
        | nil => simp [vowelScan, specVowelGroups, hc]
        | cons d cs2 =>
          have hv : vowelScan (c :: d :: cs2) = vowelScan (d :: cs2) := by
            rw [vowelScan, if_neg hc]
          have hs : specVowelGroups (c :: d :: cs2) =
              specVowelGroups (d :: cs2) := by
            rw [specVowelGroups, if_neg hc]
          rw [hv, hs]
          exact ih _ (by simpa using hl)

theorem vowelScan_eq_specVowelGroups (l : List Char) :
    vowelScan l = specVowelGroups l :=
  vowelScan_eq_spec_aux l.length l (le_refl _)

theorem lookup_bump (acc : List (String × Nat)) (w p : String) :
    (bump acc w).lookup p =
      if p = w then some (((acc.lookup p).getD 0) + 1) else acc.lookup p := by
  induction acc with
  | nil =>
    by_cases h : p = w
    · simp [bump, List.lookup, h]
    · have hb : (p == w) = false := beq_eq_false_iff_ne.mpr h
      simp [bump, List.lookup, hb, h]
  | cons kv rest ih =>
    obtain ⟨k, c⟩ := kv
    by_cases hkw : k = w
    · subst hkw
      by_cases hpk : p = k
      · simp [bump, List.lookup, hpk]
      · have hb : (p == k) = false := beq_eq_false_iff_ne.mpr hpk
        simp [bump, List.lookup, hb, hpk]
    · by_cases hpk : p = k
      · subst hpk
        have hpw : ¬p = w := hkw
        simp [bump, hkw, List.lookup, hpw]
      · have hb : (p == k) = false := beq_eq_false_iff_ne.mpr hpk
        simp [bump, hkw, List.lookup, hb, hpk, ih]

theorem lookup_foldl_bump (ws : List String) :
    ∀ (acc : List (String × Nat)) (p : String),
      (ws.foldl bump acc).lookup p =
        if p ∈ ws then some ((acc.lookup p).getD 0 + ws.count p)
        else acc.lookup p := by
  induction ws with
  | nil => intro acc p; simp
  | cons w ws ih =>
    intro acc p
    rw [List.foldl_cons, ih]
    by_cases hpw : p = w
    · subst hpw
      rw [lookup_bump]
      simp only [if_pos rfl, List.mem_cons, true_or, if_pos]
      by_cases hmem : p ∈ ws
      · rw [if_pos hmem]
        simp [List.count_cons, Nat.add_comm, Nat.add_assoc, Nat.add_left_comm]
      · rw [if_neg hmem]
        have : ws.count p = 0 := List.count_eq_zero.mpr hmem
        simp [List.count_cons, this]
    · rw [lookup_bump, if_neg hpw]
      by_cases hmem : p ∈ ws
      · have hmem2 : p ∈ w :: ws := List.mem_cons.mpr (Or.inr hmem)
        rw [if_pos hmem, if_pos hmem2]
        have : (w == p) = false := by
          simp [beq_eq_false_iff_ne]
          intro he
          exact hpw he.symm
        simp [List.count_cons, this]
      · have hmem2 : ¬p ∈ w :: ws := by
          simp [List.mem_cons, hpw, hmem]
        rw [if_neg hmem, if_neg hmem2]

theorem lookup_freq (ws : List String) (p : String) :
    (calculateWordFrequency ws).lookup p =
      if p ∈ ws then some (ws.count p) else none := by
  unfold calculateWordFrequency
  rw [lookup_foldl_bump]
  simp

theorem mem_keys_bump (acc : List (String × Nat)) (w p : String) :
    p ∈ (bump acc w).map Prod.fst ↔ p ∈ acc.map Prod.fst ∨ p = w := by
  induction acc with
  | nil => simp [bump]
  | cons kv rest ih =>
    obtain ⟨k, c⟩ := kv
    by_cases hkw : k = w
    · subst hkw
      simp [bump]
      tauto
    · simp [bump, hkw, ih]
      tauto

theorem nodup_keys_bump (acc : List (String × Nat)) (w : String)
    (h : (acc.map Prod.fst).Nodup) : ((bump acc w).map Prod.fst).Nodup := by
  induction acc with
  | nil => simp [bump]
  | cons kv rest ih =>
    obtain ⟨k, c⟩ := kv
    simp only [List.map_cons, List.nodup_cons] at h
    by_cases hkw : k = w
    · subst hkw
      have hb : bump ((k, c) :: rest) k = (k, c + 1) :: rest := by simp [bump]
      rw [hb]
      simp only [List.map_cons, List.nodup_cons]
      exact h
    · simp only [bump, if_neg hkw, List.map_cons, List.nodup_cons]
      constructor
      · rw [mem_keys_bump]
        push_neg
        exact ⟨h.1, hkw⟩
      · exact ih h.2

theorem nodup_keys_foldl (ws : List String) :
    ∀ acc : List (String × Nat), (acc.map Prod.fst).Nodup →
      ((ws.foldl bump acc).map Prod.fst).Nodup := by
  induction ws with
  | nil => intro acc h; simpa using h
  | cons w ws ih =>
    intro acc h
    rw [List.foldl_cons]
    exact ih _ (nodup_keys_bump acc w h)

theorem nodup_keys_freq (ws : List String) :
    ((calculateWordFrequency ws).map Prod.fst).Nodup := by
  unfold calculateWordFrequency
  exact nodup_keys_foldl ws [] (by simp)

theorem mem_iff_lookup (l : List (String × Nat))
    (h : (l.map Prod.fst).Nodup) (p : String) (c : Nat) :
    (p, c) ∈ l ↔ l.lookup p = some c := by
  induction l with
  | nil => simp
  | cons kv rest ih =>
    obtain ⟨k, v⟩ := kv
    simp only [List.map_cons, List.nodup_cons] at h
    by_cases hpk : p = k
    · subst hpk
      simp only [List.lookup, beq_self_eq_true]
      constructor
      · intro hmem
        rcases List.mem_cons.mp hmem with heq | hmem2
        · simp at heq
          simp [heq]
        · exfalso
          exact h.1 (List.mem_map.mpr ⟨(p, c), hmem2, rfl⟩)
      · intro hv
        simp at hv
        subst hv
        exact List.mem_cons_self _ _
    · have hbeq : (p == k) = false := by
        simpa [beq_eq_false_iff_ne] using hpk
      simp only [List.lookup, hbeq]
      rw [← ih h.2]
      simp [List.mem_cons, hpk]

theorem mem_freq_iff (ws : List String) (p : String) (c : Nat) :
    (p, c) ∈ calculateWordFrequency ws ↔ p ∈ ws ∧ c = ws.count p := by
  rw [mem_iff_lookup _ (nodup_keys_freq ws), lookup_freq]
  by_cases h : p ∈ ws <;> simp [h, eq_comm]

theorem imageOfElem_alt_ne_empty (e : Elem) (img : ImageInfo)
    (h : imageOfElem e = some img) : img.alt ≠ some "" := by
  unfold imageOfElem at h
  split at h
  · exact absurd h (by simp)
  · split at h
    · exact absurd h (by simp)
    · rw [Option.some_inj] at h
      rw [← h]
      exact emptyToNone_ne_some_empty _

/-! ## Claim theorems -/

/-- C6: on every word, `countSyllables` returns 1 when the lowercased
trimmed word has length at most 3, and otherwise strips one trailing
suffix matching consonant+"es"/"ed"/"e" (consonant class excluding `l`,
protecting words like "able"), strips one leading "y", and counts the
non-overlapping vowel-group runs matching `[aeiouy]{1,2}`, returning 1
when none is found — i.e. it agrees everywhere with the claim's algorithm
`countSyllablesSpec`. -/
theorem syllables_claim_C6 (word : String) :
    countSyllables word = countSyllablesSpec word := by
  unfold countSyllables countSyllablesSpec
  simp only [vowelScan_eq_specVowelGroups]

/-- C1: for every `SEOAnalysisResult`, the overall SEO score equals 100
minus 15 per critical issue, 5 per warning and 2 per recommendation, plus
a flat 5 when the Flesch score is at least 60 and a flat 5 when the
validated schema count is positive, clamped into [0,100]; hence it is
never below 0 nor above 100 for any issue multiset, and on every pipeline
result `stats.schemaCount` counts exactly the records with
`isValid = true`. -/
theorem score_claim_C1 :
    (∀ result : SEOAnalysisResult,
      calculateSEOScore result =
        max 0 (min 100
          ((100 : ℤ)
            - 15 * ((result.issues.filter
                (fun i => i.severity == Severity.critical)).length : ℤ)
            - 5 * ((result.issues.filter
                (fun i => i.severity == Severity.warning)).length : ℤ)
            - 2 * ((result.issues.filter
                (fun i => i.severity == Severity.recommendation)).length : ℤ)
            + (if 60 ≤ result.readability.fleschScore then 5 else 0)
            + (if 0 < result.stats.schemaCount then 5 else 0))) ∧
      0 ≤ calculateSEOScore result ∧ calculateSEOScore result ≤ 100) ∧
    (∀ (jp : String → Except String JsonVal) (up : UrlPrims) (doc : Doc)
        (url fetchedAt : String),
      (analyzeSEO jp up doc url fetchedAt).stats.schemaCount =
        ((analyzeSEO jp up doc url fetchedAt).schema.filter
          (fun s => s.isValid)).length) := by
  constructor
  · intro result
    have heq : calculateSEOScore result =
        max 0 (min 100
          ((100 : ℤ)
            - 15 * ((result.issues.filter
                (fun i => i.severity == Severity.critical)).length : ℤ)
            - 5 * ((result.issues.filter
                (fun i => i.severity == Severity.warning)).length : ℤ)
            - 2 * ((result.issues.filter
                (fun i => i.severity == Severity.recommendation)).length : ℤ)
            + (if 60 ≤ result.readability.fleschScore then 5 else 0)
            + (if 0 < result.stats.schemaCount then 5 else 0))) := by
      unfold calculateSEOScore
      split_ifs <;> push_cast <;> ring_nf
    refine ⟨heq, ?_, ?_⟩
    · rw [heq]
      exact le_max_left 0 _
    · rw [heq]
      exact max_le (by norm_num) (min_le_left _ _)
  · intro jp up doc url fetchedAt
    rfl

/-- C1 witness: a result carrying fifty critical issues scores exactly 0,
never a negative number. -/
theorem score_claim_C1_witness :
    calculateSEOScore resultFiftyCritical = 0 ∧
      0 ≤ calculateSEOScore resultFiftyCritical := by
  have h := score_claim_C1.1 resultFiftyCritical
  exact ⟨h.1.trans (by decide), h.2.1⟩

/-- C9: the analysis is a deterministic function of the document view and
the base URL: two runs differing only in the impure timestamp agree on
every field of the `SEOAnalysisResult` except `fetchedAt`. -/
theorem purity_claim_C9 (jp : String → Except String JsonVal)
    (up : UrlPrims) (doc : Doc) (url t1 t2 : String) :
    (analyzeSEO jp up doc url t1).url = (analyzeSEO jp up doc url t2).url ∧
    (analyzeSEO jp up doc url t1).metadata = (analyzeSEO jp up doc url t2).metadata ∧
    (analyzeSEO jp up doc url t1).headings = (analyzeSEO jp up doc url t2).headings ∧
    (analyzeSEO jp up doc url t1).images = (analyzeSEO jp up doc url t2).images ∧
    (analyzeSEO jp up doc url t1).links = (analyzeSEO jp up doc url t2).links ∧
    (analyzeSEO jp up doc url t1).schema = (analyzeSEO jp up doc url t2).schema ∧
    (analyzeSEO jp up doc url t1).readability = (analyzeSEO jp up doc url t2).readability ∧
    (analyzeSEO jp up doc url t1).keywords = (analyzeSEO jp up doc url t2).keywords ∧
    (analyzeSEO jp up doc url t1).issues = (analyzeSEO jp up doc url t2).issues ∧
    (analyzeSEO jp up doc url t1).stats = (analyzeSEO jp up doc url t2).stats ∧
    (analyzeSEO jp up doc url t1).fetchedAt = t1 ∧
    (analyzeSEO jp up doc url t2).fetchedAt = t2 :=
  ⟨rfl, rfl, rfl, rfl, rfl, rfl, rfl, rfl, rfl, rfl, rfl, rfl⟩

theorem mem_ite_iff {α : Type} {c : Prop} [Decidable c] {l1 l2 : List α}
    {x : α} : x ∈ (if c then l1 else l2) ↔ (c ∧ x ∈ l1) ∨ (¬c ∧ x ∈ l2) := by
  split_ifs with hc <;> simp [hc]

theorem listAppend_eq {α : Type} (l1 l2 : List α) : l1.append l2 = l1 ++ l2 :=
  rfl

theorem checkMetaIssues_category (m : MetaData) :
    ∀ i ∈ checkMetaIssues m, i.category = Category.meta := by
  intro i hi
  unfold checkMetaIssues at hi
  rcases ht : m.title with _ | t <;> rcases hd : m.description with _ | d <;>
    simp only [ht, hd, listAppend_eq, List.mem_append, mem_ite_iff,
      List.mem_singleton, List.not_mem_nil, and_false, false_or, or_false,
      and_true] at hi <;>
    aesop

theorem checkHeadingIssues_category (hs : List Heading) :
    ∀ i ∈ checkHeadingIssues hs,
      i.category = Category.struct ∨ i.category = Category.content := by
  intro i hi
  unfold checkHeadingIssues at hi
  simp only [listAppend_eq, List.mem_append, mem_ite_iff, List.mem_singleton,
    List.not_mem_nil, and_false, false_or, or_false, and_true] at hi
  aesop

theorem checkLinkIssues_category (ls : List LinkInfo) :
    ∀ i ∈ checkLinkIssues ls, i.category = Category.links := by
  intro i hi
  unfold checkLinkIssues at hi
  simp only [listAppend_eq, List.mem_append, mem_ite_iff, List.mem_singleton,
    List.not_mem_nil, and_false, false_or, or_false, and_true] at hi
  aesop

theorem checkSchemaIssues_category (ss : List SchemaData) :
    ∀ i ∈ checkSchemaIssues ss, i.category = Category.schema := by
  intro i hi
  unfold checkSchemaIssues at hi
  simp only [listAppend_eq, List.mem_append, mem_ite_iff, List.mem_singleton,
    List.not_mem_nil, and_false, false_or, or_false, and_true] at hi
  aesop

theorem detectIssues_images_from_checkImageIssues (m : MetaData)
    (hds : List Heading) (ims : List ImageInfo) (lks : List LinkInfo)
    (ss : List SchemaData) (i : SEOIssue)
    (hmem : i ∈ detectIssues m hds ims lks ss)
    (hcat : i.category = Category.images) : i ∈ checkImageIssues ims := by
  unfold detectIssues at hmem
  simp only [List.mem_append] at hmem
  rcases hmem with (((h | h) | h) | h) | h
  · exact absurd (checkMetaIssues_category m i h) (by rw [hcat]; intro hx; cases hx)
  · rcases checkHeadingIssues_category hds i h with hx | hx <;>
      rw [hcat] at hx <;> cases hx
  · exact h
  · exact absurd (checkLinkIssues_category lks i h) (by rw [hcat]; intro hx; cases hx)
  · exact absurd (checkSchemaIssues_category ss i h) (by rw [hcat]; intro hx; cases hx)

theorem checkImageIssues_eval_noAlt :
    checkImageIssues [imgNoAlt] =
      [{ severity := Severity.critical, category := Category.images,
         message := "1 of 1 images missing alt text (100%)",
         suggestion := some "Add descriptive alt text to all images for accessibility and SEO." }] := by
  unfold checkImageIssues
  have hf : [imgNoAlt].filter missingAltB = [imgNoAlt] := by decide
  have hf2 : [imgNoAlt].filter (fun img => img.alt == some "") = [] := by decide
  have hq : ((([imgNoAlt].filter missingAltB).length : ℚ) /
      (([imgNoAlt] : List ImageInfo).length : ℚ)) * 100 = ((100 : ℤ) : ℚ) := by
    rw [hf]
    norm_num
  have h50 : (50 : ℚ) < ((([imgNoAlt].filter missingAltB).length : ℚ) /
      (([imgNoAlt] : List ImageInfo).length : ℚ)) * 100 := by
    rw [hq]
    norm_num
  simp only [hf, hf2, List.length_cons, List.length_nil, List.length_singleton]
  rw [if_pos (by norm_num : (0 : Nat) < 1)]
  rw [if_pos (by rw [show ((1:ℕ):ℚ) / ((1:ℕ):ℚ) * 100 = ((100:ℤ):ℚ) by norm_num]; norm_num : (50:ℚ) < ((1:ℕ):ℚ) / ((1:ℕ):ℚ) * 100)]
  rw [if_neg (by norm_num : ¬(0 : Nat) < 0)]
  have hr : ratToFixed0 (((1:ℕ):ℚ) / ((1:ℕ):ℚ) * 100) = "100" := by
    unfold ratToFixed0
    rw [show ((1:ℕ):ℚ) / ((1:ℕ):ℚ) * 100 = ((100:ℤ):ℚ) by norm_num, round_intCast]
    decide
  rw [hr]
  decide

theorem checkImageIssues_eval_emptyAlt :
    checkImageIssues [imgEmptyAltInfo] =
      [{ severity := Severity.critical, category := Category.images,
         message := "1 of 1 images missing alt text (100%)",
         suggestion := some "Add descriptive alt text to all images for accessibility and SEO." },
       { severity := Severity.recommendation, category := Category.images,
         message := "1 image(s) with empty alt attribute",
         suggestion := some "Empty alt (alt=\"\") should only be used for decorative images. Add descriptive alt text for content images." }] := by
  unfold checkImageIssues
  have hf : [imgEmptyAltInfo].filter missingAltB = [imgEmptyAltInfo] := by decide
  have hf2 : [imgEmptyAltInfo].filter (fun img => img.alt == some "") =
      [imgEmptyAltInfo] := by decide
  simp only [hf, hf2, List.length_cons, List.length_nil, List.length_singleton]
  rw [if_pos (by norm_num : (0 : Nat) < 1)]
  rw [if_pos (by rw [show ((1:ℕ):ℚ) / ((1:ℕ):ℚ) * 100 = ((100:ℤ):ℚ) by norm_num]; norm_num : (50:ℚ) < ((1:ℕ):ℚ) / ((1:ℕ):ℚ) * 100)]
  rw [if_pos (by norm_num : (0 : Nat) < 1)]
  have hr : ratToFixed0 (((1:ℕ):ℚ) / ((1:ℕ):ℚ) * 100) = "100" := by
    unfold ratToFixed0
    rw [show ((1:ℕ):ℚ) / ((1:ℕ):ℚ) * 100 = ((100:ℤ):ℚ) by norm_num, round_intCast]
    decide
  rw [hr]
  decide

/-- C2: contrary to the claim (and to the intent of `checkImageIssues`,
whose empty-alt rule matches `img.alt === ''`), the pipeline can never emit
the empty-alt recommendation: `analyzeImages` maps `alt: alt || undefined`,
erasing an explicit empty string, so no extracted image ever has
`alt = some ""` (1); images-category issues of `detectIssues` all come from
`checkImageIssues` (2); on the document whose one visible image carries
`alt=""` the extractor yields `alt = none` (3) and the detector then emits
only the critical missing-alt issue, no recommendation (4) — although the
empty-alt rule does fire when handed an `ImageInfo` with `alt = some ""`
directly (5). -/
theorem images_claim_C2_bug :
    (∀ doc : Doc,
      ((analyzeImages doc).all (fun img => !(img.alt == some ""))) = true) ∧
    (∀ (m : MetaData) (hds : List Heading) (ims : List ImageInfo)
        (lks : List LinkInfo) (ss : List SchemaData) (i : SEOIssue),
      i ∈ detectIssues m hds ims lks ss → i.category = Category.images →
        i ∈ checkImageIssues ims) ∧
    analyzeImages docEmptyAlt = [imgNoAlt] ∧
    checkImageIssues [imgNoAlt] = [critAltIssue] ∧
    ((checkImageIssues [imgEmptyAltInfo]).any
      (fun i => i.category == Category.images
        && i.severity == Severity.recommendation)) = true := by
  refine ⟨?_, ?_, by decide, checkImageIssues_eval_noAlt, ?_⟩
  · intro doc
    rw [List.all_eq_true]
    intro img hmem
    rcases List.mem_filterMap.mp hmem with ⟨e, _, he⟩
    have := imageOfElem_alt_ne_empty e img he
    simpa using this
  · intro m hds ims lks ss i hmem hcat
    exact detectIssues_images_from_checkImageIssues m hds ims lks ss i hmem hcat
  · rw [checkImageIssues_eval_emptyAlt]
    decide

/-- C2 witness: on the failing document the critical missing-alt issue is
the pipeline's only images-category issue, obtained through the theorem's
second conjunct. -/
theorem images_claim_C2_bug_witness :
    critAltIssue ∈ checkImageIssues [imgNoAlt] := by
  apply images_claim_C2_bug.2.1 emptyMeta [] [imgNoAlt] [] [] critAltIssue ?_ rfl
  unfold detectIssues
  apply List.mem_append.mpr; left
  apply List.mem_append.mpr; left
  apply List.mem_append.mpr; right
  rw [checkImageIssues_eval_noAlt]
  exact List.mem_singleton.mpr rfl

/-- C3 counterexample: for the href `ftp://evil.com/x` against the base
`https://example.com/` the code classifies the link as internal (the
non-http(s) prefix test fires before any hostname comparison), while the
claim's own classification — a scheme-carrying href whose hostname differs
from the base is external — yields external. -/
theorem links_claim_C3_counterexample :
    linkTypeOf upX.hostname "ftp://evil.com/x" "https://example.com/" =
      LinkType.internal ∧
    claimLinkType upX.hostname "ftp://evil.com/x" "https://example.com/" =
      LinkType.external ∧
    LinkType.internal ≠ LinkType.external := by
  refine ⟨by decide, by decide, by decide⟩

/-- C3 amended: the classifier assigns exactly one type: `#`-prefixed
hrefs are anchors; otherwise a non-empty href is internal iff it starts
with `/` but not `//`, or starts with none of `http://`, `https://`, `//`
(which covers every relative href but also every non-http(s) scheme such
as `ftp:`), or its adapter hostname equals the base hostname; every other
href — including the empty string — is external. -/
theorem links_claim_C3_amended (hostFn : String → String)
    (href baseUrl : String) :
    (linkTypeOf hostFn href baseUrl = LinkType.anchor ↔
      jsStartsWith href "#" = true) ∧
    (linkTypeOf hostFn href baseUrl = LinkType.internal ↔
      (jsStartsWith href "#" = false ∧ href ≠ "" ∧
        ((jsStartsWith href "/" = true ∧ jsStartsWith href "//" = false) ∨
         (jsStartsWith href "http://" = false ∧
          jsStartsWith href "https://" = false ∧
          jsStartsWith href "//" = false) ∨
         hostFn href = hostFn baseUrl))) ∧
    (linkTypeOf hostFn href baseUrl = LinkType.external ↔
      ¬(jsStartsWith href "#" = true) ∧
      ¬(jsStartsWith href "#" = false ∧ href ≠ "" ∧
        ((jsStartsWith href "/" = true ∧ jsStartsWith href "//" = false) ∨
         (jsStartsWith href "http://" = false ∧
          jsStartsWith href "https://" = false ∧
          jsStartsWith href "//" = false) ∨
         hostFn href = hostFn baseUrl))) := by
  unfold linkTypeOf isInternalLink
  cases h1 : jsStartsWith href "#"
  case true => simp [h1]
  case false =>
    by_cases h0 : href = ""
    · simp [h0, jsStartsWith] at h1 ⊢
    · cases h2a : jsStartsWith href "/" <;>
      cases h2b : jsStartsWith href "//" <;>
      cases h3a : jsStartsWith href "http://" <;>
      cases h3b : jsStartsWith href "https://" <;>
      by_cases h4 : hostFn href = hostFn baseUrl <;>
        simp [h0, h1, h2a, h2b, h3a, h3b, h4]

/-- C10: a link is collected by the generic-anchor-text detector iff its
anchor text, lowercased and trimmed, is exactly one of the eight local
phrases (`click here`, `read more`, `learn more`, `more`, `here`, `this`,
`link`, `click`); the recommendation — identified by its fixed suggestion
string — appears in `checkLinkIssues` iff some link matches; and texts
like `website`, `page`, `more info` or the superstring `click here now`
are never flagged, while `Click Here ` is (case/whitespace-normalized). -/
theorem links_claim_C10 :
    (∀ (links : List LinkInfo) (l : LinkInfo),
      l ∈ findGenericAnchorLinks links ↔
        l ∈ links ∧ jsTrim (jsToLower l.anchorText) ∈ genericPatternsLocal) ∧
    (∀ links : List LinkInfo,
      (((checkLinkIssues links).any (fun i => i.suggestion ==
          some "Use descriptive anchor text instead of generic phrases like \"click here\" or \"read more\".")) = true ↔
        findGenericAnchorLinks links ≠ [])) ∧
    findGenericAnchorLinks [mkLink "website", mkLink "page", mkLink "more info",
      mkLink "click here now", mkLink "Click Here "] = [mkLink "Click Here "] := by
  refine ⟨?_, ?_, by decide⟩
  · intro links l
    unfold findGenericAnchorLinks
    rw [List.mem_filter]
    simp [List.elem_iff]
  · intro links
    unfold checkLinkIssues
    have e1 : ((some "Use descriptive anchor text instead of generic phrases like \"click here\" or \"read more\"." : Option String) ==
        some "Use descriptive anchor text instead of generic phrases like \"click here\" or \"read more\".") = true := by decide
    have e2 : ((some "Ensure all anchor links point to existing IDs on the page." : Option String) ==
        some "Use descriptive anchor text instead of generic phrases like \"click here\" or \"read more\".") = false := by decide
    have e3 : ((some "Consider adding rel=\"nofollow\" to external links you don\x27t want to endorse." : Option String) ==
        some "Use descriptive anchor text instead of generic phrases like \"click here\" or \"read more\".") = false := by decide
    by_cases hg : 0 < (findGenericAnchorLinks links).length <;>
      by_cases ha : 0 < (links.filter (fun l => l.type == LinkType.anchor)).length <;>
      by_cases hn : 20 < (links.filter
        (fun l => l.type == LinkType.external && !l.nofollow)).length <;>
      simp [hg, ha, hn, e1, e2, e3, List.any_append, ← List.length_pos]

/-- C10 witness: the anchor text `click here` is flagged. -/
theorem links_claim_C10_witness :
    mkLink "click here" ∈ findGenericAnchorLinks [mkLink "click here"] :=
  (links_claim_C10.1 [mkLink "click here"] (mkLink "click here")).mpr
    ⟨List.mem_singleton.mpr rfl, by decide⟩

/-- C3 amended witness: the amended characterization applied to the
counterexample href classifies it internal via the non-http(s)-prefix
clause. -/
theorem links_claim_C3_amended_witness :
    linkTypeOf upX.hostname "ftp://evil.com/x" "https://example.com/" =
      LinkType.internal :=
  (links_claim_C3_amended upX.hostname "ftp://evil.com/x"
      "https://example.com/").2.1.mpr
    ⟨by decide, by decide, Or.inr (Or.inl ⟨by decide, by decide, by decide⟩)⟩

theorem parseSchemaGo_eq (jp : String → Except String JsonVal)
    (l : List Elem) :
    parseSchemaGo jp l =
      (l.filter (fun s => !(jsTrim s.textContent == ""))).map
        (fun s => schemaRecordOf jp s.textContent) := by
  induction l with
  | nil => rfl
  | cons e l ih =>
    by_cases h : jsTrim e.textContent = ""
    · simp [parseSchemaGo, h, ih]
    · simp [parseSchemaGo, h, ih]

theorem schemaRecordOf_parsed_none (jp : String → Except String JsonVal)
    (raw : String) (h : (schemaRecordOf jp raw).isValid = false) :
    (schemaRecordOf jp raw).parsed = none := by
  unfold schemaRecordOf at h ⊢
  revert h
  rcases hjp : jp raw with msg | v
  · intro h
    rfl
  · intro h
    exact Bool.noConfusion h

/-- C4: every JSON-LD script with non-blank body yields exactly one
`SchemaRecord` — the result is the per-script record map over the
non-blank scripts, so a parse failure in one block never touches the
others; on parse failure the record is `isValid = false`, type `Unknown`,
`parsed = null`, verbatim raw text and the parser's message; on success it
is `isValid = true` with the derived type; and `isValid = false` implies
`parsed = null` throughout. -/
theorem schema_claim_C4 (jp : String → Except String JsonVal) (doc : Doc) :
    parseSchema jp doc =
      ((getJSONLDScripts doc).filter (fun s => !(jsTrim s.textContent == ""))).map
        (fun s => schemaRecordOf jp s.textContent) ∧
    (∀ r ∈ parseSchema jp doc, r.isValid = false → r.parsed = none) ∧
    (∀ raw msg, jp raw = .error msg →
      schemaRecordOf jp raw =
        { type := "Unknown", rawJson := raw, parsed := none, isValid := false,
          error := some msg }) ∧
    (∀ raw v, jp raw = .ok v →
      schemaRecordOf jp raw =
        { type := extractSchemaType v, rawJson := raw, parsed := some v,
          isValid := true, error := none }) := by
  refine ⟨parseSchemaGo_eq jp _, ?_, ?_, ?_⟩
  · intro r hr hval
    rw [show parseSchema jp doc = parseSchemaGo jp (getJSONLDScripts doc) from rfl,
      parseSchemaGo_eq] at hr
    rcases List.mem_map.mp hr with ⟨e, _, he⟩
    rw [← he] at hval ⊢
    exact schemaRecordOf_parsed_none jp _ hval
  · intro raw msg h
    unfold schemaRecordOf
    rw [h]
  · intro raw v h
    unfold schemaRecordOf
    rw [h]

/-- C4 witness: on a document with an invalid, a valid and a blank JSON-LD
script, exactly two records are produced, the invalid one keeping its raw
text, a `none` parse and the error message, without stopping the valid
block after it. -/
theorem schema_claim_C4_witness :
    parseSchema jpW docSchemas =
      [schemaRecordOf jpW "\x7bbad",
       schemaRecordOf jpW "\x7b\"@type\": \"Article\"\x7d"] ∧
    schemaRecordOf jpW "\x7bbad" =
      { type := "Unknown", rawJson := "\x7bbad", parsed := none, isValid := false,
        error := some "Unexpected token b in JSON at position 1" } ∧
    (schemaRecordOf jpW "\x7bbad").parsed = none ∧
    schemaRecordOf jpW "\x7bbad" ∈ parseSchema jpW docSchemas ∧
    (schemaRecordOf jpW "\x7b\"@type\": \"Article\"\x7d").isValid = true := by
  have h := schema_claim_C4 jpW docSchemas
  have h1 : parseSchema jpW docSchemas =
      [schemaRecordOf jpW "\x7bbad",
       schemaRecordOf jpW "\x7b\"@type\": \"Article\"\x7d"] := by
    rw [h.1]
    rfl
  have h2 : schemaRecordOf jpW "\x7bbad" =
      { type := "Unknown", rawJson := "\x7bbad", parsed := none, isValid := false,
        error := some "Unexpected token b in JSON at position 1" } :=
    h.2.2.1 "\x7bbad" "Unexpected token b in JSON at position 1" rfl
  have hmem : schemaRecordOf jpW "\x7bbad" ∈ parseSchema jpW docSchemas := by
    rw [h1]
    exact List.mem_cons_self _ _
  refine ⟨h1, h2, h.2.1 _ hmem (by rw [h2]), hmem, ?_⟩
  rw [h.2.2.2 "\x7b\"@type\": \"Article\"\x7d" (.obj [("@type", .str "Article")]) rfl]

theorem calculateReadability_eval (text : String) (h : jsTrim text ≠ "") :
    (calculateReadability text).fleschScore = toFixedQ 1 (fleschClamped text) := by
  have hw := countWords_ne_zero text h
  have hs := countSentences_ne_zero text h
  unfold calculateReadability
  rw [if_neg h]
  have hcond : (decide (countSentences text = 0) || decide (countWords text = 0)) = false := by
    simp [hw, hs]
  simp only [hcond]
  rfl

theorem fleschScore_bounds (text : String) (h : jsTrim text ≠ "") :
    0 ≤ (calculateReadability text).fleschScore ∧
      (calculateReadability text).fleschScore ≤ 100 := by
  rw [calculateReadability_eval text h]
  apply toFixedQ_one_bounds
  · exact le_max_left 0 _
  · exact max_le (by norm_num) (min_le_left _ _)

/-- C5 counterexample: on the text `cat cat cat over` (4 words, 1
sentence, 5 syllables) the clamped Flesch formula yields 97.025, but the
returned `fleschScore` is 97 — the code rounds the clamped value to one
decimal (`toFixed(1)`), so the returned score is not exactly the clamped
formula as the claim states. -/
theorem readability_claim_C5_counterexample :
    (calculateReadability "cat cat cat over").fleschScore = 97 ∧
    fleschClamped "cat cat cat over" = 3881 / 40 ∧
    ((97 : ℚ) ≠ 3881 / 40) := by
  have hw : countWords "cat cat cat over" = 4 := by decide
  have hs : countSentences "cat cat cat over" = 1 := by decide
  have hy : countTotalSyllables "cat cat cat over" = 5 := by decide
  have hne : jsTrim "cat cat cat over" ≠ "" := by decide
  have hclamp : fleschClamped "cat cat cat over" = 3881 / 40 := by
    unfold fleschClamped
    rw [hw, hs, hy]
    have hform : (206.835 : ℚ) - 1.015 * (((4 : ℕ) : ℚ) / ((1 : ℕ) : ℚ))
        - 84.6 * (((5 : ℕ) : ℚ) / ((4 : ℕ) : ℚ)) = 3881 / 40 := by
      norm_num
    show (0 : ℚ) ⊔ 100 ⊓ (206.835 - 1.015 * (((4 : ℕ) : ℚ) / ((1 : ℕ) : ℚ))
        - 84.6 * (((5 : ℕ) : ℚ) / ((4 : ℕ) : ℚ))) = 3881 / 40
    rw [hform]
    rw [min_eq_right (by norm_num : (3881 : ℚ) / 40 ≤ 100)]
    rw [max_eq_right (by norm_num : (0 : ℚ) ≤ 3881 / 40)]
  refine ⟨?_, hclamp, by norm_num⟩
  rw [calculateReadability_eval _ hne, hclamp]
  unfold toFixedQ
  rw [show (3881 : ℚ) / 40 * 10 ^ 1 = 3881 / 4 by norm_num]
  rw [round_eq]
  rw [show (3881 : ℚ) / 4 + 1 / 2 = 3883 / 4 by norm_num]
  rw [show ⌊(3883 : ℚ) / 4⌋ = 970 by norm_num]
  norm_num

/-- C5 amended: on blank (empty or whitespace-only) text the scorer
returns score 0 with gradeLevel `N/A` and message `No text content
found`; on non-blank text the returned `fleschScore` equals the Flesch
formula clamped into [0,100] and then rounded to one decimal place
(`toFixed(1)`), and in particular always satisfies
`0 ≤ fleschScore ≤ 100`. -/
theorem readability_claim_C5_amended (text : String) :
    (jsTrim text = "" →
      calculateReadability text =
        { fleschScore := 0, gradeLevel := "N/A",
          interpretation := "No text content found",
          statistics := { sentences := 0, words := 0, syllables := 0,
                          avgWordsPerSentence := 0,
                          avgSyllablesPerWord := 0 } }) ∧
    (jsTrim text ≠ "" →
      ((calculateReadability text).fleschScore =
          toFixedQ 1 (fleschClamped text) ∧
        0 ≤ (calculateReadability text).fleschScore ∧
        (calculateReadability text).fleschScore ≤ 100)) := by
  constructor
  · intro h
    unfold calculateReadability
    rw [if_pos h]
  · intro h
    exact ⟨calculateReadability_eval text h, fleschScore_bounds text h⟩

/-- C5 witness: both branches of the amended claim at concrete inputs —
the counterexample text is non-blank and gets the rounded clamped score
within bounds, and whitespace-only text yields the `N/A` record. -/
theorem readability_claim_C5_witness :
    (jsTrim "cat cat cat over" ≠ "" ∧
      (calculateReadability "cat cat cat over").fleschScore =
        toFixedQ 1 (fleschClamped "cat cat cat over") ∧
      0 ≤ (calculateReadability "cat cat cat over").fleschScore ∧
      (calculateReadability "cat cat cat over").fleschScore ≤ 100) ∧
    (jsTrim "   " = "" ∧ (calculateReadability "   ").gradeLevel = "N/A") := by
  constructor
  · have h := (readability_claim_C5_amended "cat cat cat over").2 (by decide)
    exact ⟨by decide, h.1, h.2.1, h.2.2⟩
  · have h := (readability_claim_C5_amended "   ").1 (by decide)
    refine ⟨by decide, ?_⟩
    rw [h]

theorem headingOfElem_eq (e : Elem) :
    headingOfElem e =
      if (isElementVisible e && !(getTextContentSafe e == "")) = true then
        some { level := levelOfTag e.tag, text := getTextContentSafe e,
               wordCount := countWords (getTextContentSafe e) }
      else none := by
  unfold headingOfElem
  by_cases hv : isElementVisible e = true
  · by_cases ht : getTextContentSafe e = "" <;> simp [hv, ht]
  · rw [Bool.not_eq_true] at hv
    simp [hv]

/-- C8: every heading produced by `analyzeHeadings` has a level in [1,6]
(the digit of its `h1..h6` tag) and non-empty text, and the output is
exactly the order-preserving map of the visible `h1..h6` elements with
non-blank trimmed text, in document order. -/
theorem headings_claim_C8 (doc : Doc) :
    (∀ h ∈ analyzeHeadings doc, 1 ≤ h.level ∧ h.level ≤ 6 ∧ h.text ≠ "") ∧
    analyzeHeadings doc =
      ((getAllHeadings doc).filter
        (fun e => isElementVisible e && !(getTextContentSafe e == ""))).map
        (fun e => { level := levelOfTag e.tag, text := getTextContentSafe e,
                    wordCount := countWords (getTextContentSafe e) }) := by
  constructor
  · intro h hmem
    rcases List.mem_filterMap.mp hmem with ⟨e, he, hfe⟩
    have htag : e.tag ∈ headingTags := by
      have hf := List.mem_filter.mp he
      simpa [List.elem_iff] using hf.2
    rw [headingOfElem_eq] at hfe
    split at hfe
    · rename_i hcond
      rw [Option.some_inj] at hfe
      have hlv : h.level = levelOfTag e.tag := by rw [← hfe]
      have htx : h.text = getTextContentSafe e := by rw [← hfe]
      have htne : getTextContentSafe e ≠ "" := by
        rw [Bool.and_eq_true] at hcond
        simpa using hcond.2
      refine ⟨?_, ?_, ?_⟩
      · rw [hlv]
        simp only [headingTags, List.mem_cons, List.mem_singleton,
          List.not_mem_nil, or_false] at htag
        rcases htag with h1 | h1 | h1 | h1 | h1 | h1 <;> rw [h1] <;> decide
      · rw [hlv]
        simp only [headingTags, List.mem_cons, List.mem_singleton,
          List.not_mem_nil, or_false] at htag
        rcases htag with h1 | h1 | h1 | h1 | h1 | h1 <;> rw [h1] <;> decide
      · rw [htx]
        exact htne
    · exact absurd hfe (by simp)
  · exact filterMap_eq_map_filter _ _ _ headingOfElem_eq _

/-- C8 witness: on a document with `h1 Main Title`, `h3 Sub`, a blank `h2`
and a style-hidden `h2`, the two visible non-blank headings are produced
in order with in-range levels and non-empty text. -/
theorem headings_claim_C8_witness :
    (1 ≤ (Heading.mk 1 "Main Title" 2).level ∧
      (Heading.mk 1 "Main Title" 2).level ≤ 6 ∧
      (Heading.mk 1 "Main Title" 2).text ≠ "") ∧
    analyzeHeadings docHeadings =
      [Heading.mk 1 "Main Title" 2, Heading.mk 3 "Sub" 1] := by
  constructor
  · exact (headings_claim_C8 docHeadings).1 (Heading.mk 1 "Main Title" 2)
      (by decide)
  · exact ((headings_claim_C8 docHeadings).2).trans (by decide)

theorem analyzeNGram_eq (ws : List String) (n t : Nat) :
    analyzeNGram ws n t =
      if generateNGrams ws n = [] then []
      else
        (List.insertionSort kwGE
          (kwEntries (generateNGrams ws n)
            (if n = 1 then t else (generateNGrams ws n).length) n)).take
          MAX_RESULTS_PER_NGRAM := rfl

theorem mem_kwEntries (G : List String) (base n : Nat) (e : KeywordDensity) :
    e ∈ kwEntries G base n ↔
      (e.phrase ∈ G ∧ MIN_OCCURRENCES ≤ e.count ∧
        e.count = G.count e.phrase ∧
        e.percentage = calculatePercentage e.count base 2 ∧ e.nGram = n) := by
  unfold kwEntries
  rw [List.mem_filterMap]
  constructor
  · rintro ⟨pc, hpc, hsome⟩
    by_cases hlt : pc.2 < MIN_OCCURRENCES
    · rw [if_pos hlt] at hsome
      cases hsome
    · rw [if_neg hlt] at hsome
      rw [Option.some_inj] at hsome
      have hpc2 : (pc.1, pc.2) ∈ calculateWordFrequency G := by
        simpa using hpc
      have hfreq := (mem_freq_iff G pc.1 pc.2).mp hpc2
      rw [← hsome]
      exact ⟨hfreq.1, Nat.le_of_not_lt hlt, hfreq.2, rfl, rfl⟩
  · rintro ⟨hmem, hmin, hcount, hpct, hng⟩
    refine ⟨(e.phrase, G.count e.phrase),
      (mem_freq_iff G e.phrase (G.count e.phrase)).mpr ⟨hmem, rfl⟩, ?_⟩
    rw [if_neg (by rw [← hcount]; omega : ¬(G.count e.phrase < MIN_OCCURRENCES))]
    rw [Option.some_inj]
    obtain ⟨ph, ct, pct, ng⟩ := e
    simp only at hcount hpct hng
    subst hcount
    subst hpct
    subst hng
    rfl

/-- C7: for every stop-word-filtered token sequence `ws` and n-gram size
in {1,2,3}, the density result for that size has at most 20 entries,
sorted by descending count; every entry meets the minimum-occurrence
threshold, carries the phrase's window count and the rounded percentage
over the right base (token count for unigrams, window count otherwise);
and it is the 20-truncation of a descending-sorted list whose phrases are
exactly the n-gram windows occurring at least `MIN_OCCURRENCES` times. -/
theorem keywords_claim_C7 (ws : List String) (n : Nat)
    (_hn : n = 1 ∨ n = 2 ∨ n = 3) :
    (analyzeNGram ws n ws.length).length ≤ 20 ∧
    List.Sorted kwGE (analyzeNGram ws n ws.length) ∧
    (∀ e ∈ analyzeNGram ws n ws.length,
      MIN_OCCURRENCES ≤ e.count ∧
      e.count = (generateNGrams ws n).count e.phrase ∧
      e.percentage = calculatePercentage e.count
        (if n = 1 then ws.length else (generateNGrams ws n).length) 2 ∧
      e.nGram = n) ∧
    (∃ S : List KeywordDensity,
      analyzeNGram ws n ws.length = S.take 20 ∧
      List.Sorted kwGE S ∧
      (∀ p : String, (∃ e ∈ S, e.phrase = p) ↔
        (p ∈ generateNGrams ws n ∧
          MIN_OCCURRENCES ≤ (generateNGrams ws n).count p))) := by
  by_cases hnil : generateNGrams ws n = []
  · have hres : analyzeNGram ws n ws.length = [] := by
      rw [analyzeNGram_eq, if_pos hnil]
    refine ⟨by simp [hres], by simp [hres], by simp [hres],
      [], by simp [hres], by simp, ?_⟩
    intro p
    simp [hnil]
  · have hres : analyzeNGram ws n ws.length =
        (List.insertionSort kwGE
          (kwEntries (generateNGrams ws n)
            (if n = 1 then ws.length else (generateNGrams ws n).length)
            n)).take MAX_RESULTS_PER_NGRAM := by
      rw [analyzeNGram_eq, if_neg hnil]
    have hperm := List.perm_insertionSort kwGE
      (kwEntries (generateNGrams ws n)
        (if n = 1 then ws.length else (generateNGrams ws n).length) n)
    have hsorted := List.sorted_insertionSort kwGE
      (kwEntries (generateNGrams ws n)
        (if n = 1 then ws.length else (generateNGrams ws n).length) n)
    refine ⟨?_, ?_, ?_, _, hres, hsorted, ?_⟩
    · rw [hres]
      exact List.length_take_le _ _
    · rw [hres]
      exact List.Pairwise.sublist (List.take_sublist _ _) hsorted
    · intro e he
      rw [hres] at he
      have he2 := hperm.subset ((List.take_sublist _ _).subset he)
      have hc := (mem_kwEntries _ _ _ e).mp he2
      exact ⟨hc.2.1, hc.2.2.1, hc.2.2.2.1, hc.2.2.2.2⟩
    · intro p
      constructor
      · rintro ⟨e, heS, hep⟩
        have he2 := hperm.subset heS
        have hc := (mem_kwEntries _ _ _ e).mp he2
        refine ⟨hep ▸ hc.1, ?_⟩
        have h1 := hc.2.1
        have h2 := hc.2.2.1
        rw [h2, hep] at h1
        exact h1
      · rintro ⟨hmem, hmin⟩
        refine ⟨KeywordDensity.mk p ((generateNGrams ws n).count p)
          (calculatePercentage ((generateNGrams ws n).count p)
            (if n = 1 then ws.length else (generateNGrams ws n).length) 2)
          n, ?_, rfl⟩
        rw [hperm.mem_iff]
        exact (mem_kwEntries _ _ _ _).mpr ⟨hmem, hmin, rfl, rfl, rfl⟩

/-- C7 witness: for the token sequence `[buy, buy]` and `n = 1`, the entry
`buy` has count 2 (at the threshold) and percentage 100 over the
filtered-token base. -/
theorem keywords_claim_C7_witness :
    ((1 : Nat) = 1 ∨ (1 : Nat) = 2 ∨ (1 : Nat) = 3) ∧
    (MIN_OCCURRENCES ≤ kwBuy.count ∧
      kwBuy.count = (generateNGrams wsBuy 1).count kwBuy.phrase ∧
      kwBuy.percentage = calculatePercentage kwBuy.count
        (if 1 = 1 then wsBuy.length else (generateNGrams wsBuy 1).length) 2 ∧
      kwBuy.nGram = 1) := by
  refine ⟨Or.inl rfl, ?_⟩
  have hpct : calculatePercentage 2 2 2 = 100 := by
    unfold calculatePercentage toFixedQ
    rw [if_neg (by norm_num : ¬(2 : ℕ) = 0)]
    rw [show ((2 : ℕ) : ℚ) / ((2 : ℕ) : ℚ) * 100 * 10 ^ 2 = ((10000 : ℤ) : ℚ)
      by push_cast; norm_num]
    rw [round_intCast]
    norm_num
  apply (keywords_claim_C7 wsBuy 1 (Or.inl rfl)).2.2.1 kwBuy
  have hfreq : calculateWordFrequency (generateNGrams wsBuy 1) =
      [("buy", 2)] := by decide
  have hbase : (if (1 : Nat) = 1 then wsBuy.length
      else (generateNGrams wsBuy 1).length) = 2 := by decide
  have hents : kwEntries (generateNGrams wsBuy 1)
      (if (1 : Nat) = 1 then wsBuy.length
        else (generateNGrams wsBuy 1).length) 1 = [kwBuy] := by
    unfold kwEntries
    rw [hfreq, hbase]
    show [({ phrase := "buy", count := 2, percentage := calculatePercentage 2 2 2, nGram := 1 } : KeywordDensity)] = [kwBuy]
    rw [hpct]
    rfl
  rw [analyzeNGram_eq, if_neg (by decide : ¬generateNGrams wsBuy 1 = [])]
  rw [hents]
  rw [show List.insertionSort kwGE [kwBuy] = [kwBuy] from rfl]
  show kwBuy ∈ [kwBuy]
  exact List.mem_cons_self _ _

end Crawlix
